import Mathlib

/-!
Verification development for the "last hand standing" card-game engine
(`last_hand_standing_bot.py`).

The Python source is shallowly embedded below:
* card data is a `CardDef` record; the catalog is restricted to the entries
  this development touches, transcribed field-for-field from the source
  (lookups are total with the source's defaults: unknown ids have cost `1`,
  target mode `"other"` and empty description);
* the vote/block numeric tables (`VOTE_CARDS_SIMPLE`, `BLOCK_CARDS_SIMPLE`)
  are transcribed in full;
* mutation is explicit state passing on `PlayerState` / `GameState`;
* Python's RNG is modelled by parameters: a `shuffle` function for
  `random.shuffle` (its permutation property is a hypothesis where needed)
  and a `rand : Nat → Nat` stream for `random.randrange` (taken modulo the
  hand length, which is exactly the range `randrange` guarantees);
* energy is an `Int`, as in the source, so statements about nonnegativity
  are meaningful.
-/

namespace LastHand

/-- A card cost as stored in the catalog: an integer, the literal `"X"`,
or `None` (unplayable curse). -/
inductive Cost where
  | nat (n : Nat)
  | x
  | unplayable
deriving DecidableEq, Repr

/-- One catalog entry (`CARD_CATALOG` values in the source). -/
structure CardDef where
  rarity : String
  cost : Cost
  targetMode : String
  description : String
deriving DecidableEq, Repr

/-- The card catalog, restricted to the entries used in this development.
Each record is transcribed from the source `CARD_CATALOG` literal. -/
def CARD_CATALOG : String → Option CardDef
  | "CURSE" => some ⟨"curse", .unplayable, "none",
      "Unplayable. Does nothing except take up space in your hand."⟩
  | "BASE_VOTE" => some ⟨"starter", .nat 1, "other", "Cast 1 vote."⟩
  | "BLOCK_1" => some ⟨"starter", .nat 1, "self", "Block 1 vote against you."⟩
  | "SURVIVE" => some ⟨"starter", .nat 1, "self", "Gain 2 blocks. Discard 1 card."⟩
  | "PLUS_ONE_VOTE" => some ⟨"common", .nat 1, "other", "Cast 1 vote."⟩
  | "QUICK_DRAW" => some ⟨"common", .nat 1, "none", "Draw 2 cards."⟩
  | "ENERGY_SURGE" => some ⟨"common", .nat 1, "self", "Gain +2 Energy this round."⟩
  | "TURBO_TIME" => some ⟨"common", .nat 0, "self",
      "Gain 2E. Add a curse card to your draw pile."⟩
  | "TORNADO" => some ⟨"uncommon", .x, "other", "Cast 1 vote X times."⟩
  | "BASE_VOTE_UG" => some ⟨"starter", .nat 1, "other", "Cast 2 votes."⟩
  | "BLOCK_1_UG" => some ⟨"starter", .nat 1, "self", "Block 2 votes against you."⟩
  | "ENERGY_SURGE_UG" => some ⟨"common", .nat 0, "self", "Gain +2 Energy this round."⟩
  | _ => none

/-- `card_cost`: the catalog cost, defaulting to `1` for unknown ids
(`CARD_CATALOG.get(card_id, {}).get("cost", 1)` in the source). -/
def card_cost (cid : String) : Cost :=
  match CARD_CATALOG cid with
  | some d => d.cost
  | none => .nat 1

/-- Target mode, defaulting to `"other"`
(`CARD_CATALOG.get(cid, {}).get("target", "other")` in the source). -/
def card_target (cid : String) : String :=
  match CARD_CATALOG cid with
  | some d => d.targetMode
  | none => "other"

/-- Description, defaulting to `""`. -/
def card_desc (cid : String) : String :=
  match CARD_CATALOG cid with
  | some d => d.description
  | none => ""

/-- `VOTE_CARDS_SIMPLE`: vote magnitudes per card id, transcribed in full. -/
def VOTE_CARDS_SIMPLE : String → Option Nat
  | "BASE_VOTE" => some 1
  | "BASE_VOTE_UG" => some 2
  | "PLUS_ONE_VOTE" => some 1
  | "PLUS_ONE_VOTE_UG" => some 1
  | "POUND_VOTE" => some 1
  | "POUND_VOTE_UG" => some 1
  | "PRESSURE_VOTE" => some 1
  | "PRESSURE_VOTE_UG" => some 2
  | "DOUBLE_VOTE_2E" => some 2
  | "DOUBLE_VOTE_2E_UG" => some 3
  | "DOUBLE_VOTE_SPLIT" => some 2
  | "DOUBLE_VOTE_SPLIT_UG" => some 4
  | "BLIND_VOTE" => some 3
  | "BLIND_VOTE_UG" => some 4
  | "VOTE_THROW" => some 2
  | "VOTE_THROW_UG" => some 3
  | "VOTE_SPRAY" => some 2
  | "VOTE_SPRAY_UG" => some 3
  | "CONCENTRATE" => some 2
  | "CONCENTRATE_UG" => some 4
  | "RIDDLER" => some 4
  | "RIDDLER_UG" => some 6
  | "SLASH" => some 1
  | "SLASH_UG" => some 2
  | "INFINITE_VOTE" => some 2
  | "INFINITE_VOTE_UG" => some 3
  | "CARNIVORE" => some 3
  | "CARNIVORE_UG" => some 3
  | "SWEEP_LEG" => some 2
  | "SWEEP_LEG_UG" => some 2
  | "CONCLUSION" => some 4
  | "CONCLUSION_UG" => some 6
  | "WINDMILL_VOTE" => some 2
  | "WINDMILL_VOTE_UG" => some 4
  | _ => none

/-- `BLOCK_CARDS_SIMPLE`: block magnitudes per card id, transcribed in full. -/
def BLOCK_CARDS_SIMPLE : String → Option Nat
  | "BLOCK_1" => some 1
  | "BLOCK_1_UG" => some 2
  | "SHIELD" => some 1
  | "SHIELD_UG" => some 1
  | "BLOCK_2" => some 2
  | "BLOCK_2z_UG" => some 2
  | "SURVIVE" => some 2
  | "SURVIVE_UG" => some 3
  | "BRING_IT_ON" => some 2
  | "BRING_IT_ON_UG" => some 3
  | "FLIP" => some 1
  | "FLIP_UG" => some 1
  | "DE_SPRAY" => some 1
  | "DE_SPRAY_UG" => some 3
  | "ROLL_AND_DODGE" => some 2
  | "ROLL_AND_DODGE_UG" => some 3
  | "PROTECTION" => some 3
  | "PROTECTION_UG" => some 4
  | "ARMORIZE" => some 2
  | "ARMORIZE_UG" => some 3
  | "SPEED" => some 2
  | "SPEED_UG" => some 4
  | "ESCAPE" => some 1
  | "ESCAPE_UG" => some 2
  | "FLETCHING" => some 1
  | "FLETCHING_UG" => some 2
  | "JUMP" => some 2
  | "JUMP_UG" => some 3
  | "PIERCING_WALL" => some 3
  | "PIERCING_WALL_UG" => some 4
  | "SWEEP" => some 3
  | "SWEEP_UG" => some 4
  | "CONTINUE" => some 1
  | "CONTINUE_UG" => some 2
  | "FORWARD" => some 1
  | "FORWARD_UG" => some 1
  | "HAND_STOP" => some 1
  | "HAND_STOP_UG" => some 1
  | "WALRUS" => some 2
  | "WALRUS_UG" => some 2
  | _ => none

/-- `UPGRADE_MAP`, built in the source by pairing every `*_UG` catalog id
with its base id; restricted here to the embedded catalog entries. -/
def UPGRADE_MAP : String → Option String
  | "BASE_VOTE" => some "BASE_VOTE_UG"
  | "BLOCK_1" => some "BLOCK_1_UG"
  | "ENERGY_SURGE" => some "ENERGY_SURGE_UG"
  | _ => none

/-- `PlayerState` (all fields of the source dataclass). -/
structure PlayerState where
  user_id : Nat
  username : String
  alive : Bool := true
  deck : List String := []
  discard : List String := []
  hand : List String := []
  energy_max : Int := 3
  energy : Int := 3
  blocks : Nat := 0
  votes_cast_this_round : Nat := 0
  votes_received_this_round : Nat := 0
  next_round_extra_cards : Nat := 0
  next_round_energy_bonus : Nat := 0
  retained_last_round : List String := []
  turn_done : Bool := false
  draft_done : Bool := false
  camp_done : Bool := false
  cards_played_this_round : List String := []
  cards_discarded_this_round : List String := []
deriving DecidableEq, Repr

/-- `Action` (the source dataclass). -/
structure Action where
  source_id : Nat
  card_id : String
  target_id : Option Nat := none
  x_value : Int := 0
deriving DecidableEq, Repr

/-- `GameState` (the source dataclass); `players` models the insertion-ordered
Python dict `user_id → PlayerState` (keys are the `user_id` fields). -/
structure GameState where
  chat_id : Nat
  host_id : Nat
  round_number : Nat := 0
  joining_open : Bool := true
  phase : String := "lobby"
  players : List PlayerState := []
  actions : List Action := []
  reward_offers : List (Nat × List String) := []
deriving DecidableEq, Repr

/-- Dict lookup `game.players.get(pid)`. -/
def findPlayer (g : GameState) (pid : Nat) : Option PlayerState :=
  g.players.find? (fun p => p.user_id == pid)

/-- In-place mutation of the dict entry for `pid` (Python mutates the
`PlayerState` object held in the dict). -/
def modifyPlayer (g : GameState) (pid : Nat) (f : PlayerState → PlayerState) : GameState :=
  { g with players := g.players.map (fun q => if q.user_id == pid then f q else q) }

/-- Replacing the dict entry for `pid` with `p`. -/
def setPlayer (g : GameState) (pid : Nat) (p : PlayerState) : GameState :=
  modifyPlayer g pid (fun _ => p)

/-- `list_alive_players`. -/
def list_alive_players (g : GameState) : List PlayerState :=
  g.players.filter (fun p => p.alive)

/-- The reshuffle step at the top of `draw_one`: when the deck is exhausted
and the discard is non-empty, move the whole (shuffled) discard into the
deck (`tmp = list(discard); discard.clear(); shuffle(tmp); deck.extend(tmp)`). -/
def reshuffle_if_needed (shuffle : List String → List String) (p : PlayerState) :
    PlayerState :=
  if p.deck = [] ∧ p.discard ≠ [] then
    { p with deck := p.deck ++ shuffle p.discard, discard := [] }
  else p

/-- `draw_one`: reshuffle if needed, then pop the top of the deck (the END
of the list, as Python's `list.pop()`) into the hand. -/
def draw_one (shuffle : List String → List String) (p : PlayerState) :
    PlayerState × Option String :=
  let p1 := reshuffle_if_needed shuffle p
  match p1.deck.getLast? with
  | some c => ({ p1 with deck := p1.deck.dropLast, hand := p1.hand ++ [c] }, some c)
  | none => (p1, none)

/-- `draw_cards`: draw up to `n` cards, stopping early when `draw_one`
returns nothing; also returns the drawn cards in order. -/
def draw_cards (shuffle : List String → List String) (p : PlayerState) :
    Nat → PlayerState × List String
  | 0 => (p, [])
  | n + 1 =>
    match draw_one shuffle p with
    | (p1, none) => (p1, [])
    | (p1, some c) =>
      let r := draw_cards shuffle p1 n
      (r.1, c :: r.2)

/-- `discard_random`: `count` times, remove the card at a random valid hand
index into the discard (and the per-round discard tracker); `rand k` models
`random.randrange(len(hand))` via reduction modulo the hand length. -/
def discard_random (rand : Nat → Nat) (p : PlayerState) : Nat → PlayerState
  | 0 => p
  | k + 1 =>
    if p.hand = [] then p
    else
      let idx := rand k % p.hand.length
      let cid := p.hand.getD idx ""
      discard_random rand
        { p with hand := p.hand.eraseIdx idx,
                 discard := p.discard ++ [cid],
                 cards_discarded_this_round := p.cards_discarded_this_round ++ [cid] } k

/-- `add_curse_to_draw_pile`: append `count` CURSE cards to the discard. -/
def add_curse_to_draw_pile (p : PlayerState) : Nat → PlayerState
  | 0 => p
  | k + 1 => add_curse_to_draw_pile { p with discard := p.discard ++ ["CURSE"] } k

/-- Substring test on character lists (Python's `needle in haystack`). -/
def infix_chars (needle : List Char) : List Char → Bool
  | [] => needle.isPrefixOf []
  | c :: t => needle.isPrefixOf (c :: t) || infix_chars needle t

/-- `needle in desc` where `desc = card_desc(cid).lower()`; `.lower()` is
modelled character-wise, which agrees with Python on the catalog's text. -/
def desc_has (cid : String) (needle : String) : Bool :=
  infix_chars needle.toList ((card_desc cid).toList.map Char.toLower)

/-- The card-id set guarding the coarse draw-effects block in
`apply_immediate_effect` (transcribed; the source set literal lists
SLIM twice, which is redundant in a set). -/
def drawEffectCards : List String :=
  ["QUICK_DRAW", "QUICK_DRAW_UG", "SLIM", "SLIM_UG", "BATTLE_CRY", "BATTLE_CRY_UG",
   "BALANCE", "BALANCE_UG", "CARD_DRAW_2", "CARD_DRAW_2_UG", "EXPERT", "EXPERT_UG",
   "GAMBLE", "GAMBLE_UG", "BACKPACK", "BACKPACK_UG", "OVERLOAD", "OVERLOAD_UG",
   "SCRAPS", "SCRAPS_UG", "BRING_IT_ON", "BRING_IT_ON_UG", "FLIP", "FLIP_UG",
   "POUND_VOTE", "POUND_VOTE_UG", "TURBO_TIME", "TURBO_TIME_UG", "ESCAPE", "ESCAPE_UG"]

/-! `apply_immediate_effect` is transcribed block by block; each commented
block of the source function becomes one named step below, and the function
is their composition in source order. -/

/-- Effect block: track that card was played. -/
def eff_track (cid : String) (p : PlayerState) : PlayerState :=
  { p with cards_played_this_round := p.cards_played_this_round ++ [cid] }

/-- Effect block: simple draw effects (desc-pattern dispatch). -/
def eff_draw_simple (shuffle : List String → List String) (cid : String)
    (p : PlayerState) : PlayerState :=
  if cid ∈ drawEffectCards then
    if desc_has cid "draw cards until you have 5" then (draw_cards shuffle p (5 - p.hand.length)).1
    else if desc_has cid "draw cards until you have 6" then (draw_cards shuffle p (6 - p.hand.length)).1
    else if desc_has cid "draw 4 cards" then (draw_cards shuffle p 4).1
    else if desc_has cid "draw 3 cards" then (draw_cards shuffle p 3).1
    else if desc_has cid "draw 2 cards" then (draw_cards shuffle p 2).1
    else if desc_has cid "draw 1 card" then (draw_cards shuffle p 1).1
    else p
  else p

/-- Effect block: Balance (draw then discard 1). -/
def eff_balance (shuffle : List String → List String) (rand : Nat → Nat)
    (cid : String) (p : PlayerState) : PlayerState :=
  if cid = "BALANCE" ∨ cid = "BALANCE_UG" then
    let p :=
      if desc_has cid "draw 3 cards" then (draw_cards shuffle p 3).1
      else if desc_has cid "draw 4 cards" then (draw_cards shuffle p 4).1
      else p
    if p.hand ≠ [] then discard_random rand p 1 else p
  else p

/-- Effect block: Vote Throw (draw 1, discard 1). -/
def eff_vote_throw (shuffle : List String → List String) (rand : Nat → Nat)
    (cid : String) (p : PlayerState) : PlayerState :=
  if cid = "VOTE_THROW" ∨ cid = "VOTE_THROW_UG" then
    let p := (draw_cards shuffle p 1).1
    if p.hand ≠ [] then discard_random rand p 1 else p
  else p

/-- Effect block: Backpack (draw 1 discard 1, or 2/2). -/
def eff_backpack (shuffle : List String → List String) (rand : Nat → Nat)
    (cid : String) (p : PlayerState) : PlayerState :=
  if cid = "BACKPACK" ∨ cid = "BACKPACK_UG" then
    if desc_has cid "draw 2 cards" then
      let p := (draw_cards shuffle p 2).1
      discard_random rand p (min 2 p.hand.length)
    else
      let p := (draw_cards shuffle p 1).1
      if p.hand ≠ [] then discard_random rand p 1 else p
  else p

/-- Effect block: Gamble (discard the whole hand, popped from the end,
then draw that many). -/
def eff_gamble (shuffle : List String → List String) (cid : String)
    (p : PlayerState) : PlayerState :=
  if cid = "GAMBLE" ∨ cid = "GAMBLE_UG" then
    let old_count := p.hand.length
    let p := { p with hand := [],
                      discard := p.discard ++ p.hand.reverse,
                      cards_discarded_this_round :=
                        p.cards_discarded_this_round ++ p.hand.reverse }
    (draw_cards shuffle p old_count).1
  else p

/-- Effect block: Escape draws 1. -/
def eff_escape (shuffle : List String → List String) (cid : String)
    (p : PlayerState) : PlayerState :=
  if cid = "ESCAPE" ∨ cid = "ESCAPE_UG" then (draw_cards shuffle p 1).1 else p

/-- Effect block: Bring It On draws 1. -/
def eff_bring_it_on (shuffle : List String → List String) (cid : String)
    (p : PlayerState) : PlayerState :=
  if cid = "BRING_IT_ON" ∨ cid = "BRING_IT_ON_UG" then (draw_cards shuffle p 1).1 else p

/-- Effect block: Flip draws 2 (or 3). -/
def eff_flip (shuffle : List String → List String) (cid : String)
    (p : PlayerState) : PlayerState :=
  if cid = "FLIP" ∨ cid = "FLIP_UG" then
    if desc_has cid "draw 3 cards" then (draw_cards shuffle p 3).1
    else (draw_cards shuffle p 2).1
  else p

/-- Effect block: Group Talk banks next-round extra card(s). -/
def eff_group_talk (cid : String) (p : PlayerState) : PlayerState :=
  if cid = "GROUP_TALK" ∨ cid = "GROUP_TALK_UG" then
    if desc_has cid "gain +2 card next round" then
      { p with next_round_extra_cards := p.next_round_extra_cards + 2 }
    else { p with next_round_extra_cards := p.next_round_extra_cards + 1 }
  else p

/-- Effect block: Energy Battery banks next-round energy. -/
def eff_energy_battery (cid : String) (p : PlayerState) : PlayerState :=
  if cid = "ENERGY_BATTERY" ∨ cid = "ENERGY_BATTERY_UG" then
    { p with next_round_energy_bonus := p.next_round_energy_bonus + 1 }
  else p

/-- Effect block: Energy Surge gains +2 energy NOW, uncapped. -/
def eff_energy_surge (cid : String) (p : PlayerState) : PlayerState :=
  if cid = "ENERGY_SURGE" ∨ cid = "ENERGY_SURGE_UG" then
    { p with energy := p.energy + 2 }
  else p

/-- Effect block: Turbo Time gains +2 (or +3) energy now, uncapped. -/
def eff_turbo_time (cid : String) (p : PlayerState) : PlayerState :=
  if cid = "TURBO_TIME" ∨ cid = "TURBO_TIME_UG" then
    if desc_has cid "gain 3e" then { p with energy := p.energy + 3 }
    else { p with energy := p.energy + 2 }
  else p

/-- Effect block: curse insertion by description pattern. -/
def eff_curse (cid : String) (p : PlayerState) : PlayerState :=
  if desc_has cid "add a curse card to your draw pile" then add_curse_to_draw_pile p 1
  else p

/-- Effect block: Survive's discard-1 clause (its block amount lives in
`BLOCK_CARDS_SIMPLE`). -/
def eff_survive (rand : Nat → Nat) (cid : String) (p : PlayerState) : PlayerState :=
  if cid = "SURVIVE" ∨ cid = "SURVIVE_UG" then
    if p.hand ≠ [] then discard_random rand p 1 else p
  else p

/-- Effect block: Trash discards 1 random card and gains 1 energy. -/
def eff_trash (rand : Nat → Nat) (cid : String) (p : PlayerState) : PlayerState :=
  if cid = "TRASH" ∨ cid = "TRASH_UG" then
    if p.hand ≠ [] then
      let p := discard_random rand p 1
      { p with energy := p.energy + 1 }
    else p
  else p

/-- `apply_immediate_effect`: the synchronous on-play effects — the blocks
above composed in source order (the source's `game`, `target` and `x_value`
parameters are never read in the body). -/
def apply_immediate_effect (shuffle : List String → List String) (rand : Nat → Nat)
    (_game : GameState) (p0 : PlayerState) (cid : String) (_target : Option PlayerState)
    (_x_value : Int) : PlayerState :=
  eff_trash rand cid
    (eff_survive rand cid
      (eff_curse cid
        (eff_turbo_time cid
          (eff_energy_surge cid
            (eff_energy_battery cid
              (eff_group_talk cid
                (eff_flip shuffle cid
                  (eff_bring_it_on shuffle cid
                    (eff_escape shuffle cid
                      (eff_gamble shuffle cid
                        (eff_backpack shuffle rand cid
                          (eff_vote_throw shuffle rand cid
                            (eff_balance shuffle rand cid
                              (eff_draw_simple shuffle cid
                                (eff_track cid p0)))))))))))))))

/-- Rejection reasons in the `playcard` callback branch. -/
inductive PlayErr where
  | notInGameOrDead
  | invalidIndex
  | unplayableCard
  | noEnergyX
  | notEnoughEnergy
deriving DecidableEq, Repr

/-- Result of the validation phase of the `playcard` branch (everything up
to and including the cost check, before any state is written). -/
inductive VResult where
  | err (e : PlayErr)
  | ok (p : PlayerState) (cid : String) (spent : Int) (xv : Int)
deriving DecidableEq, Repr

/-- The validation prefix of the `playcard` callback branch: player lookup
and aliveness, hand-index bound, and the cost/energy check. Returns the
card id, the energy to spend and the bound `x_value`. -/
def play_validate (g : GameState) (player_id : Nat) (card_index : Nat) : VResult :=
  match findPlayer g player_id with
  | none => .err .notInGameOrDead
  | some p =>
    if ¬ p.alive then .err .notInGameOrDead
    else if card_index ≥ p.hand.length then .err .invalidIndex
    else
      let cid := p.hand.getD card_index ""
      match card_cost cid with
      | .unplayable => .err .unplayableCard
      | .x =>
        if p.energy ≤ 0 then .err .noEnergyX
        else .ok p cid p.energy p.energy
      | .nat c =>
        if p.energy < (c : Int) then .err .notEnoughEnergy
        else .ok p cid (c : Int) 0

/-- Outcome of the `playcard` callback branch. A rejection carries the
game state as left behind by the call; `awaitTarget` is the path where the
target-selection buttons are shown (energy already deducted, no action
recorded yet). -/
inductive PlayOutcome where
  | rejected (e : PlayErr) (g : GameState)
  | played (g : GameState)
  | awaitTarget (g : GameState) (energy_spent : Int) (x_value : Int)
deriving DecidableEq, Repr

/-- The `playcard` callback branch (`handle_callback`, `kind == "playcard"`,
after `get_game` succeeded): validate, deduct energy, then either record the
action at once (self/none target mode, or no alive target available) or ask
for a target. -/
def playcard (shuffle : List String → List String) (rand : Nat → Nat)
    (g : GameState) (player_id : Nat) (card_index : Nat) : PlayOutcome :=
  match play_validate g player_id card_index with
  | .err e => .rejected e g
  | .ok p cid spent xv =>
    let p1 := { p with energy := p.energy - spent }
    let tm := card_target cid
    if tm = "self" ∨ tm = "none" then
      let target_id : Option Nat := if tm = "self" then some player_id else none
      let act : Action := ⟨player_id, cid, target_id, xv⟩
      let g1 := { g with actions := g.actions ++ [act] }
      let tp := match target_id with
                | some tid => findPlayer g1 tid
                | none => none
      let p2 := apply_immediate_effect shuffle rand g1 p1 cid tp xv
      let p3 := { p2 with discard := p2.discard ++ [cid],
                          hand := p2.hand.eraseIdx card_index }
      .played (setPlayer g1 player_id p3)
    else
      let alive := g.players.filter (fun pl => pl.alive && pl.user_id != player_id)
      if alive = [] then
        -- no valid target; just discard the card (energy stays spent)
        let act : Action := ⟨player_id, cid, none, xv⟩
        let g1 := { g with actions := g.actions ++ [act] }
        let p2 := apply_immediate_effect shuffle rand g1 p1 cid none xv
        let p3 := { p2 with discard := p2.discard ++ [cid],
                            hand := p2.hand.eraseIdx card_index }
        .played (setPlayer g1 player_id p3)
      else
        .awaitTarget (setPlayer g player_id p1) spent xv

/-- Rejection reasons in the `target` callback branch. -/
inductive TargetErr where
  | invalidSourceOrTarget
  | invalidCard
deriving DecidableEq, Repr

/-- Outcome of the `target` callback branch. `assistPending` is the
ASSIST_ALLY special path (card moved to discard, delegate asked, no action
recorded yet). -/
inductive TargetOutcome where
  | rejected (e : TargetErr) (g : GameState)
  | assistPending (g : GameState)
  | done (g : GameState)
deriving DecidableEq, Repr

/-- The `target` callback branch (`kind == "target"`, after `get_game`
succeeded): source/target lookup and aliveness, hand-index bound, then the
commit (ASSIST_ALLY delegation or the default record-effect-discard). -/
def target_callback (shuffle : List String → List String) (rand : Nat → Nat)
    (g : GameState) (player_id card_index target_id : Nat) (x_value : Int) :
    TargetOutcome :=
  match findPlayer g player_id, findPlayer g target_id with
  | some p, some t =>
    if ¬ p.alive ∨ ¬ t.alive then .rejected .invalidSourceOrTarget g
    else if card_index ≥ p.hand.length then .rejected .invalidCard g
    else
      let cid := p.hand.getD card_index ""
      if cid = "ASSIST_ALLY" ∨ cid = "ASSIST_ALLY_UG" then
        let p1 := { p with discard := p.discard ++ [cid],
                           hand := p.hand.eraseIdx card_index }
        .assistPending (setPlayer g player_id p1)
      else
        let act : Action := ⟨player_id, cid, some target_id, x_value⟩
        let g1 := { g with actions := g.actions ++ [act] }
        let p2 := apply_immediate_effect shuffle rand g1 p cid (some t) x_value
        let p3 := { p2 with discard := p2.discard ++ [cid],
                            hand := p2.hand.eraseIdx card_index }
        .done (setPlayer g1 player_id p3)
  | _, _ => .rejected .invalidSourceOrTarget g

/-- Insertion-ordered dict accumulation `m[k] = m.get(k, 0) + v`
(the `votes_on` / `blocks_on` dicts in `resolve`). -/
def bump (m : List (Nat × Nat)) (k : Nat) (v : Nat) : List (Nat × Nat) :=
  match m with
  | [] => [(k, v)]
  | (k1, v1) :: rest => if k1 = k then (k1, v1 + v) :: rest else (k1, v1) :: bump rest k v

/-- Dict lookup `m.get(k, 0)`. -/
def lookupD (m : List (Nat × Nat)) (k : Nat) : Nat :=
  match m with
  | [] => 0
  | (k1, v1) :: rest => if k1 = k then v1 else lookupD rest k

/-- One iteration of the tally loop in `resolve`, over one action:
simple votes (with the per-player counters), simple blocks (credited to the
SOURCE regardless of target), and the ASSIST_ALLY / BLOCK_ALLY specials.
The source indexes `game.players[...]` directly (which can only be reached
with existing ids); the embedding's `modifyPlayer` is a no-op for an absent
id. -/
def resolve_step (gs : GameState × List (Nat × Nat) × List (Nat × Nat)) (act : Action) :
    GameState × List (Nat × Nat) × List (Nat × Nat) :=
  let g := gs.1
  let votes_on := gs.2.1
  let blocks_on := gs.2.2
  let cid := act.card_id
  let src := act.source_id
  -- Simple votes
  let gv : GameState × List (Nat × Nat) :=
    match VOTE_CARDS_SIMPLE cid, act.target_id with
    | some count, some tgt =>
      (modifyPlayer
        (modifyPlayer g src (fun p =>
          { p with votes_cast_this_round := p.votes_cast_this_round + count }))
        tgt (fun p =>
          { p with votes_received_this_round := p.votes_received_this_round + count }),
       bump votes_on tgt count)
    | _, _ => (g, votes_on)
  let g := gv.1
  let votes_on := gv.2
  -- Simple blocks: apply to source
  let blocks_on :=
    match BLOCK_CARDS_SIMPLE cid with
    | some b => bump blocks_on src b
    | none => blocks_on
  -- Special starter helpers
  let votes_on :=
    if cid = "ASSIST_ALLY" then
      match act.target_id with
      | some tgt => bump votes_on tgt 1
      | none => votes_on
    else votes_on
  let votes_on :=
    if cid = "ASSIST_ALLY_UG" then
      match act.target_id with
      | some tgt => bump votes_on tgt 2
      | none => votes_on
    else votes_on
  let blocks_on :=
    if cid = "BLOCK_ALLY" then
      match act.target_id with
      | some tgt => bump blocks_on tgt 1
      | none => blocks_on
    else blocks_on
  let blocks_on :=
    if cid = "BLOCK_ALLY_UG" then
      match act.target_id with
      | some tgt => bump blocks_on tgt 2
      | none => blocks_on
    else blocks_on
  (g, votes_on, blocks_on)

/-- The whole tally loop of `resolve` over the round's action log. -/
def resolve_tally (g : GameState) : GameState × List (Nat × Nat) × List (Nat × Nat) :=
  g.actions.foldl resolve_step (g, [], [])

/-- `final_votes`: for each key of `votes_on`, `max(0, votes − blocks)`
(truncated subtraction on `Nat` is exactly `max(0, ·−·)`). -/
def final_votes_of (votes_on blocks_on : List (Nat × Nat)) : List (Nat × Nat) :=
  votes_on.map (fun kv => (kv.1, kv.2 - lookupD blocks_on kv.1))

/-- Outcome of `/resolve`. `resolvedDraft` is the non-terminal case, where
the source then calls `reward(...)` (which samples offers and sets the phase
to `"drafting"`); terminal cases set the phase to `"finished"` inside
`resolve` itself. -/
inductive ResolveOutcome where
  | rejectedNotHost (g : GameState)
  | rejectedTooFew (g : GameState)
  | noActions (g : GameState)
  | noVotes (g : GameState)
  | resolvedFinished (g : GameState) (eliminated : List Nat)
  | resolvedDraft (g : GameState) (eliminated : List Nat)
deriving DecidableEq, Repr

/-- The `/resolve` command: guards (host, ≥2 alive, non-empty action log),
tally, `final_votes`, then elimination of every alive player whose final
tally equals `max(final_votes.values())` — the source only short-circuits
when the `final_votes` DICT is empty, not when all its values are zero. -/
def resolve (g : GameState) (actor : Nat) : ResolveOutcome :=
  if actor ≠ g.host_id then .rejectedNotHost g
  else if (list_alive_players g).length < 2 then .rejectedTooFew g
  else if g.actions = [] then .noActions g
  else
    let t := resolve_tally g
    let g1 := t.1
    let final_votes := final_votes_of t.2.1 t.2.2
    if final_votes = [] then .noVotes g1
    else
      let max_votes := (final_votes.map Prod.snd).foldl Nat.max 0
      let elim_ids := (final_votes.filter (fun kv => kv.2 = max_votes)).map Prod.fst
      let elim_alive := elim_ids.filter (fun pid =>
        match findPlayer g1 pid with
        | some p => p.alive
        | none => false)
      let g2 := elim_alive.foldl
        (fun gg pid => modifyPlayer gg pid (fun p => { p with alive := false })) g1
      let alive_after := list_alive_players g2
      if alive_after.length = 1 ∨ alive_after.length = 0 then
        .resolvedFinished { g2 with phase := "finished" } elim_alive
      else
        .resolvedDraft g2 elim_alive

/-- Insertion-ordered dict assignment `m[k] = v` (for `reward_offers`). -/
def set_offers (m : List (Nat × List String)) (k : Nat) (v : List String) :
    List (Nat × List String) :=
  match m with
  | [] => [(k, v)]
  | (k1, v1) :: rest => if k1 = k then (k1, v) :: rest else (k1, v1) :: set_offers rest k v

/-- `m.get(k, [])` for `reward_offers`. -/
def offers_of (g : GameState) (pid : Nat) : List String :=
  match g.reward_offers.find? (fun kv => kv.1 == pid) with
  | some kv => kv.2
  | none => []

/-- Outcome of the `reward_pick` callback branch. -/
inductive PickOutcome where
  | rejectedStale (g : GameState)
  | rejectedNoPlayer (g : GameState)
  | picked (g : GameState)
deriving DecidableEq, Repr

/-- The `reward_pick` callback branch (after `get_game` succeeded): the
picked card must be among the player's current offers; it is appended to the
deck, the offers are cleared and `draft_done` is set. -/
def reward_pick (g : GameState) (player_id : Nat) (cid : String) : PickOutcome :=
  let offers := offers_of g player_id
  if cid ∉ offers then .rejectedStale g
  else
    match findPlayer g player_id with
    | none => .rejectedNoPlayer g
    | some p =>
      let g1 := setPlayer g player_id { p with deck := p.deck ++ [cid], draft_done := true }
      .picked { g1 with reward_offers := set_offers g1.reward_offers player_id [] }

/-- Outcome of the camp pick branches. -/
inductive CampOutcome where
  | rejected (g : GameState)
  | done (g : GameState)
deriving DecidableEq, Repr

/-- The `camp_pick_upgrade` callback branch (after `get_game` succeeded):
replace the first occurrence of `cid` IN PLACE by its upgrade, preferring
the deck over the discard (`idx = container.index(cid); container[idx] = new`). -/
def camp_pick_upgrade (g : GameState) (player_id : Nat) (cid : String) : CampOutcome :=
  match findPlayer g player_id with
  | none => .rejected g
  | some p =>
    if ¬ p.alive then .rejected g
    else
      match UPGRADE_MAP cid with
      | none => .rejected g
      | some new_id =>
        if cid ∈ p.deck then
          .done (setPlayer g player_id
            { p with deck := p.deck.set (p.deck.indexOf cid) new_id, camp_done := true })
        else if cid ∈ p.discard then
          .done (setPlayer g player_id
            { p with discard := p.discard.set (p.discard.indexOf cid) new_id,
                     camp_done := true })
        else .rejected g

/-- The `camp_pick_remove` callback branch (after `get_game` succeeded):
remove the first occurrence of `cid` from the deck, else from the discard
(`container.remove(cid)`). -/
def camp_pick_remove (g : GameState) (player_id : Nat) (cid : String) : CampOutcome :=
  match findPlayer g player_id with
  | none => .rejected g
  | some p =>
    if ¬ p.alive then .rejected g
    else if cid ∈ p.deck then
      .done (setPlayer g player_id { p with deck := p.deck.erase cid, camp_done := true })
    else if cid ∈ p.discard then
      .done (setPlayer g player_id { p with discard := p.discard.erase cid, camp_done := true })
    else .rejected g

/-- The multiset of card ids a player owns across deck, discard and hand. -/
def pool (p : PlayerState) : Multiset String :=
  (p.deck ++ p.discard ++ p.hand : List String)

/-- A deck-lifecycle operation from §4.2 (draw / reshuffle-on-demand /
random discard), for stating invariance over arbitrary sequences. -/
inductive DeckOp where
  | drawOne
  | drawCards (n : Nat)
  | discardRandom (k : Nat)
deriving DecidableEq, Repr

/-- Apply one deck-lifecycle operation. -/
def apply_deck_op (shuffle : List String → List String) (rand : Nat → Nat)
    (p : PlayerState) : DeckOp → PlayerState
  | .drawOne => (draw_one shuffle p).1
  | .drawCards n => (draw_cards shuffle p n).1
  | .discardRandom k => discard_random rand p k

/-- Apply a sequence of deck-lifecycle operations. -/
def apply_deck_ops (shuffle : List String → List String) (rand : Nat → Nat)
    (p : PlayerState) (ops : List DeckOp) : PlayerState :=
  ops.foldl (apply_deck_op shuffle rand) p

/-! Observers used to state theorems about outcomes. -/

/-- The game state carried by a `playcard` outcome. -/
def play_state : PlayOutcome → GameState
  | .rejected _ g => g
  | .played g => g
  | .awaitTarget g _ _ => g

/-- Outcome kind of `playcard`: `0` rejected, `1` played, `2` awaiting target. -/
def play_tag : PlayOutcome → Nat
  | .rejected _ _ => 0
  | .played _ => 1
  | .awaitTarget _ _ _ => 2

/-- The eliminated-player list of a `/resolve` outcome (empty when the round
did not reach the elimination step). -/
def resolve_eliminated : ResolveOutcome → List Nat
  | .resolvedFinished _ els => els
  | .resolvedDraft _ els => els
  | _ => []

/-- Energy and energy cap of a given player after a `playcard` outcome. -/
def play_player_energy (o : PlayOutcome) (pid : Nat) : Option (Int × Int) :=
  (findPlayer (play_state o) pid).map (fun p => (p.energy, p.energy_max))

/-- Identity stand-in for `random.shuffle` in concrete witnesses. -/
def idShuffle : List String → List String := fun l => l

/-- Constant stand-in for the `randrange` stream in concrete witnesses. -/
def rand0 : Nat → Nat := fun _ => 0

/-! Concrete states used by evaluations, counterexamples and witnesses. -/

/-- Scenario A (spec §8): two players; P1 played a 1-vote card on P2 and
P2 played a 1-block self card; the action log as recorded by the engine. -/
def scenarioA : GameState :=
  { chat_id := 100, host_id := 1, round_number := 1, joining_open := false,
    phase := "playing",
    players := [{ user_id := 1, username := "P1", energy := 2 },
                { user_id := 2, username := "P2", energy := 2 }],
    actions := [⟨1, "BASE_VOTE", some 2, 0⟩, ⟨2, "BLOCK_1", some 2, 0⟩] }

/-- A player about to play ENERGY_SURGE with full energy. -/
def pSurge : PlayerState :=
  { user_id := 1, username := "P1", hand := ["ENERGY_SURGE"], deck := ["BASE_VOTE"] }

/-- The corresponding two-player game in the playing phase. -/
def gSurge : GameState :=
  { chat_id := 1, host_id := 1, phase := "playing",
    players := [pSurge, { user_id := 2, username := "P2" }] }

/-- A player holding the X-cost card TORNADO with 2 energy. -/
def pTorn : PlayerState :=
  { user_id := 1, username := "P1", hand := ["TORNADO"], energy := 2 }

/-- The corresponding two-player game. -/
def gTorn : GameState :=
  { chat_id := 1, host_id := 1, phase := "playing",
    players := [pTorn, { user_id := 2, username := "P2" }] }

/-- A player holding only the unplayable CURSE card. -/
def pCurse : PlayerState := { user_id := 1, username := "P1", hand := ["CURSE"] }

/-- The corresponding game. -/
def gCurse : GameState :=
  { chat_id := 1, host_id := 1, phase := "playing",
    players := [pCurse, { user_id := 2, username := "P2" }] }

/-- A game sitting in the `drafting` phase whose player still has a playable
self-targeted card and energy. -/
def gDraftPhase : GameState :=
  { chat_id := 1, host_id := 1, phase := "drafting",
    players := [{ user_id := 1, username := "P1", hand := ["BLOCK_1"] },
                { user_id := 2, username := "P2" }] }

/-- A player at camp with one upgradable card in the deck and one in the
discard. -/
def pCamp : PlayerState :=
  { user_id := 1, username := "P1",
    deck := ["BASE_VOTE", "BLOCK_1"], discard := ["BLOCK_1"] }

/-- The corresponding game in the camp phase. -/
def gCamp : GameState :=
  { chat_id := 1, host_id := 1, phase := "camp", players := [pCamp] }
/-- A game whose player 1 has an empty hand (index 0 is invalid) and a dead
player 2. -/
def gRej : GameState :=
  { chat_id := 1, host_id := 1, phase := "playing",
    players := [{ user_id := 1, username := "P1", hand := [] },
                { user_id := 2, username := "P2", alive := false }] }
/-- `g` with its phase replaced. -/
def set_phase (g : GameState) (s : String) : GameState := { g with phase := s }

/-- Pushing a phase replacement under a `playcard` outcome. -/
def play_outcome_set_phase (o : PlayOutcome) (s : String) : PlayOutcome :=
  match o with
  | .rejected e g => .rejected e (set_phase g s)
  | .played g => .played (set_phase g s)
  | .awaitTarget g spent xv => .awaitTarget (set_phase g s) spent xv
/-- A player holding a targeted card while every other player is dead. -/
def pNoTgt : PlayerState := { user_id := 1, username := "P1", hand := ["BASE_VOTE"] }

/-- The corresponding game: P2 is eliminated, so BASE_VOTE has no eligible
target. -/
def gNoTgt : GameState :=
  { chat_id := 1, host_id := 1, phase := "playing",
    players := [pNoTgt, { user_id := 2, username := "P2", alive := false }] }
/-- All players of a game have nonnegative energy. -/
def energies_nonneg (g : GameState) : Prop := ∀ q ∈ g.players, 0 ≤ q.energy

/-- The game state carried by a `target` callback outcome. -/
def target_state : TargetOutcome → GameState
  | .rejected _ g => g
  | .assistPending g => g
  | .done g => g
/-- The game state carried by a `reward_pick` outcome. -/
def pick_state : PickOutcome → GameState
  | .rejectedStale g => g
  | .rejectedNoPlayer g => g
  | .picked g => g

/-- The game state carried by a camp outcome. -/
def camp_state : CampOutcome → GameState
  | .rejected g => g
  | .done g => g
/-- A player about to take a draft offer. -/
def pDraft : PlayerState := { user_id := 1, username := "P1", deck := ["BASE_VOTE"] }

/-- The corresponding game with one pending offer. -/
def gDraftPick : GameState :=
  { chat_id := 1, host_id := 1, phase := "drafting", players := [pDraft],
    reward_offers := [(1, ["PLUS_ONE_VOTE"])] }
/-- Scenario C's starting player: deck of 3, discard of 5, empty hand. -/
def pScenC : PlayerState :=
  { user_id := 1, username := "P", deck := ["a", "b", "c"],
    discard := ["d", "e", "f", "g", "h"], hand := [] }

/-- The state after the three deck cards have been drawn. -/
def p3mid : PlayerState :=
  { user_id := 1, username := "P", deck := [],
    discard := ["d", "e", "f", "g", "h"], hand := ["c", "b", "a"] }
/-- A player with an exhausted deck and a non-empty discard. -/
def pShuf : PlayerState :=
  { user_id := 1, username := "P", deck := [], discard := ["d", "e"] }

end LastHand

namespace LastHand

/-- C1: the spec says a round resolution computes
`finalVotes[p] = max(0, votesOn[p] − blocksOn[p])` and eliminates nobody
when no final tally is strictly positive (Scenario A: P1 one 1-vote card on
P2, P2 one 1-block self card ⟹ `finalVotes[P2] = 0`, no elimination).
The code agrees on the tally (`finalVotes[P2] = 0`) but, because its guard
only tests emptiness of the `final_votes` dict rather than positivity of its
values, it proceeds to eliminate P2, whose zero tally is the maximum: this
evaluation shows the engine eliminating the fully-blocked player in exactly
the spec's Scenario A. -/
theorem C1_scenarioA_eliminates_fully_blocked_player :
    lookupD (final_votes_of (resolve_tally scenarioA).2.1 (resolve_tally scenarioA).2.2) 2
      = 0
    ∧ resolve_eliminated (resolve scenarioA 1) = [2] := by
  constructor
  · rfl
  · rfl

/-- C5 counterexample: the claim says every operation keeps
`energy ≤ energyMax`. Playing ENERGY_SURGE (cost 1, `self`) from the
reachable full-energy state debits 1 and then adds 2 uncapped, ending at
energy 4 with `energy_max` 3. -/
theorem C5_counterexample_energy_exceeds_max :
    play_player_energy (playcard idShuffle rand0 gSurge 1 0) 1 = some (4, 3)
    ∧ (3 : Int) < 4 := by
  constructor
  · rfl
  · decide

/-- C6 counterexample: the claim says a card play submitted while the phase
is not `playing` is rejected with a phase violation, with no action appended
and no player-state change. In the `drafting` phase the playcard branch
accepts the play: the outcome is `played`, an action is appended, and the
player's energy drops from 3 to 2. -/
theorem C6_counterexample_play_accepted_in_drafting :
    gDraftPhase.phase = "drafting"
    ∧ play_tag (playcard idShuffle rand0 gDraftPhase 1 0) = 1
    ∧ (play_state (playcard idShuffle rand0 gDraftPhase 1 0)).actions
        = [⟨1, "BLOCK_1", some 1, 0⟩]
    ∧ play_player_energy (playcard idShuffle rand0 gDraftPhase 1 0) 1 = some (2, 3) := by
  refine ⟨rfl, rfl, rfl, rfl⟩

/-- C10: in the resolver's tally loop, an action whose `target_id` is null
contributes no votes — the votes dict and every player's per-round counters
are untouched — while a block-classified card still credits its block amount
to its SOURCE regardless of target. -/
theorem C10_null_target_contributes_no_votes
    (g : GameState) (votes_on blocks_on : List (Nat × Nat)) (act : Action)
    (h : act.target_id = none) :
    resolve_step (g, votes_on, blocks_on) act =
      (g, votes_on,
        match BLOCK_CARDS_SIMPLE act.card_id with
        | some b => bump blocks_on act.source_id b
        | none => blocks_on) := by
  unfold resolve_step
  cases hv : VOTE_CARDS_SIMPLE act.card_id <;>
    cases hb : BLOCK_CARDS_SIMPLE act.card_id <;>
      simp only [h, hv, hb, ite_self]

/-- C10 witness: a null-target BLOCK_1 action credits one block to its
source and changes nothing else. -/
theorem C10_null_target_witness :
    (⟨2, "BLOCK_1", none, 0⟩ : Action).target_id = none
    ∧ resolve_step (scenarioA, [], []) ⟨2, "BLOCK_1", none, 0⟩
        = (scenarioA, [], [(2, 1)]) :=
  ⟨rfl, C10_null_target_contributes_no_votes scenarioA [] [] ⟨2, "BLOCK_1", none, 0⟩ rfl⟩

/-- C9: a camp upgrade replaces one instance of the chosen card in place
with its `UPGRADE_MAP` target — preferring the deck over the discard —
keeping the container's length and the replaced position; a camp remove
deletes exactly one instance, shortening the container by one; both fail
(with no state change) when the card is in neither container. -/
theorem C9_camp_upgrade_and_remove
    (g : GameState) (pid : Nat) (cid u : String) (p : PlayerState)
    (hfind : findPlayer g pid = some p) (halive : p.alive = true)
    (hup : UPGRADE_MAP cid = some u) :
    (cid ∈ p.deck →
      camp_pick_upgrade g pid cid =
        .done (setPlayer g pid
          { p with deck := p.deck.set (p.deck.indexOf cid) u, camp_done := true })
      ∧ (p.deck.set (p.deck.indexOf cid) u).length = p.deck.length
      ∧ p.deck.indexOf cid < p.deck.length
      ∧ p.deck.getD (p.deck.indexOf cid) "" = cid)
    ∧ (cid ∉ p.deck → cid ∈ p.discard →
      camp_pick_upgrade g pid cid =
        .done (setPlayer g pid
          { p with discard := p.discard.set (p.discard.indexOf cid) u, camp_done := true })
      ∧ (p.discard.set (p.discard.indexOf cid) u).length = p.discard.length
      ∧ p.discard.getD (p.discard.indexOf cid) "" = cid)
    ∧ (cid ∈ p.deck →
      camp_pick_remove g pid cid =
        .done (setPlayer g pid { p with deck := p.deck.erase cid, camp_done := true })
      ∧ (p.deck.erase cid).length + 1 = p.deck.length)
    ∧ (cid ∉ p.deck → cid ∈ p.discard →
      camp_pick_remove g pid cid =
        .done (setPlayer g pid { p with discard := p.discard.erase cid, camp_done := true })
      ∧ (p.discard.erase cid).length + 1 = p.discard.length)
    ∧ (cid ∉ p.deck → cid ∉ p.discard →
      camp_pick_upgrade g pid cid = .rejected g
      ∧ camp_pick_remove g pid cid = .rejected g) := by
  have hlen : ∀ l : List String, cid ∈ l → (l.erase cid).length + 1 = l.length := by
    intro l hm
    have h1 : 1 ≤ l.length := Nat.one_le_iff_ne_zero.mpr (by
      intro h0
      rw [List.length_eq_zero] at h0
      subst h0
      simp at hm)
    rw [List.length_erase_of_mem hm]
    omega
  have hgetD : ∀ l : List String, cid ∈ l → l.getD (l.indexOf cid) "" = cid := by
    intro l hm
    have hi : l.indexOf cid < l.length := List.indexOf_lt_length.mpr hm
    rw [List.getD_eq_getElem l "" hi, List.getElem_indexOf hi]
  refine ⟨?_, ?_, ?_, ?_, ?_⟩
  · intro hmem
    refine ⟨?_, List.length_set _ _ _, List.indexOf_lt_length.mpr hmem, hgetD _ hmem⟩
    unfold camp_pick_upgrade
    simp only [hfind, halive, hup, hmem, not_true, if_false, if_true, ite_true, ite_false]
  · intro hno hmem
    refine ⟨?_, List.length_set _ _ _, hgetD _ hmem⟩
    unfold camp_pick_upgrade
    simp only [hfind, halive, hup, hno, hmem, not_true, if_false, if_true, ite_true, ite_false]
  · intro hmem
    refine ⟨?_, hlen _ hmem⟩
    unfold camp_pick_remove
    simp only [hfind, halive, hmem, not_true, if_false, if_true, ite_true, ite_false]
  · intro hno hmem
    refine ⟨?_, hlen _ hmem⟩
    unfold camp_pick_remove
    simp only [hfind, halive, hno, hmem, not_true, if_false, if_true, ite_true, ite_false]
  · intro hno1 hno2
    constructor
    · unfold camp_pick_upgrade
      simp only [hfind, halive, hup, hno1, hno2, not_true, if_false, ite_true, ite_false]
    · unfold camp_pick_remove
      simp only [hfind, halive, hno1, hno2, not_true, if_false, ite_true, ite_false]

/-- C9 witness: upgrading BASE_VOTE rewrites it in place in the deck;
removing it shortens the deck by one. -/
theorem C9_camp_witness :
    camp_pick_upgrade gCamp 1 "BASE_VOTE" =
      .done (setPlayer gCamp 1
        { pCamp with deck := ["BASE_VOTE_UG", "BLOCK_1"], camp_done := true })
    ∧ camp_pick_remove gCamp 1 "BASE_VOTE" =
      .done (setPlayer gCamp 1
        { pCamp with deck := ["BLOCK_1"], camp_done := true }) := by
  have h := C9_camp_upgrade_and_remove gCamp 1 "BASE_VOTE" "BASE_VOTE_UG" pCamp rfl rfl rfl
  exact ⟨((h.1 (by decide)).1 : _), ((h.2.2.1 (by decide)).1 : _)⟩

/-- C8: a rejected call performs no partial mutation: every rejection in
the playcard branch, and every rejection in the target branch (the
target-selection step), returns the game state exactly as it was before
that call. (The spec separately records — §4.4 and C7 — that energy spent
by an earlier, accepted playcard call is not refunded when the later target
step cannot complete.) -/
theorem C8_rejected_calls_mutate_nothing :
    (∀ shuffle rand g pid idx e g1,
      playcard shuffle rand g pid idx = .rejected e g1 → g1 = g)
    ∧ (∀ shuffle rand g pid idx tid xv e g1,
      target_callback shuffle rand g pid idx tid xv = .rejected e g1 → g1 = g) := by
  constructor
  · intro shuffle rand g pid idx e g1 h
    unfold playcard at h
    cases hv : play_validate g pid idx with
    | err e2 =>
      rw [hv] at h
      cases h
      rfl
    | ok p cid spent xv =>
      rw [hv] at h
      simp only [] at h
      split at h
      · cases h
      · split at h
        · cases h
        · cases h
  · intro shuffle rand g pid idx tid xv e g1 h
    unfold target_callback at h
    cases h1 : findPlayer g pid with
    | none =>
      rw [h1] at h
      cases h2 : findPlayer g tid <;> rw [h2] at h <;> (cases h; rfl)
    | some p =>
      rw [h1] at h
      cases h2 : findPlayer g tid with
      | none =>
        rw [h2] at h
        cases h
        rfl
      | some t =>
        rw [h2] at h
        simp only [] at h
        split at h
        · cases h
          rfl
        · split at h
          · cases h
            rfl
          · split at h
            · cases h
            · cases h

/-- The effect body never reads its `game`, `target` or `x_value` arguments. -/
theorem apply_immediate_effect_game_irrelevant
    (shuffle : List String → List String) (rand : Nat → Nat)
    (g1 g2 : GameState) (p : PlayerState) (cid : String)
    (t1 t2 : Option PlayerState) (x1 x2 : Int) :
    apply_immediate_effect shuffle rand g1 p cid t1 x1 =
      apply_immediate_effect shuffle rand g2 p cid t2 x2 := rfl

/-- C6 amended: the playcard branch performs no phase check at all — its
behaviour is identical in every phase (lobby, drafting, camp, finished):
replacing the phase commutes with the whole call. -/
theorem C6_playcard_ignores_phase
    (shuffle : List String → List String) (rand : Nat → Nat)
    (g : GameState) (s : String) (pid idx : Nat) :
    playcard shuffle rand (set_phase g s) pid idx =
      play_outcome_set_phase (playcard shuffle rand g pid idx) s := by
  have hv : play_validate (set_phase g s) pid idx = play_validate g pid idx := rfl
  unfold playcard
  rw [hv]
  cases play_validate g pid idx with
  | err e => rfl
  | ok p cid spent xv =>
    simp only []
    by_cases h1 : card_target cid = "self" ∨ card_target cid = "none"
    · rw [if_pos h1, if_pos h1]
      rfl
    · rw [if_neg h1, if_neg h1]
      have hp : (set_phase g s).players = g.players := rfl
      rw [hp]
      by_cases h2 : g.players.filter (fun pl => pl.alive && pl.user_id != pid) = []
      · rw [if_pos h2, if_pos h2]
        rfl
      · rw [if_neg h2, if_neg h2]
        rfl

/-- C8 witness: a concrete rejected playcard call and a concrete rejected
target call, both leaving the state untouched. -/
theorem C8_rejection_witness :
    playcard idShuffle rand0 gRej 1 0 = .rejected .invalidIndex gRej
    ∧ target_callback idShuffle rand0 gRej 1 0 2 0 = .rejected .invalidSourceOrTarget gRej
    ∧ gRej = gRej ∧ gRej = gRej :=
  ⟨rfl, rfl,
   C8_rejected_calls_mutate_nothing.1 idShuffle rand0 gRej 1 0 .invalidIndex gRej rfl,
   C8_rejected_calls_mutate_nothing.2 idShuffle rand0 gRej 1 0 2 0
     .invalidSourceOrTarget gRej rfl⟩

/-- C7: when a targeted card is played and no eligible alive target exists,
the play still commits: the already-deducted energy stays spent (final
energy is exactly the pre-play energy minus the validated cost, with no
refund anywhere), the card moves from hand to discard, and an Action with a
null target is appended to the round's log. The `heff` hypothesis pins the
played card's immediate-effect to the tracking-only behaviour (true of any
card without a wired effect, e.g. BASE_VOTE), so the final state is exact. -/
theorem C7_no_eligible_target_keeps_energy_spent
    (shuffle : List String → List String) (rand : Nat → Nat)
    (g : GameState) (pid idx : Nat) (p : PlayerState) (cid : String) (spent xv : Int)
    (hval : play_validate g pid idx = .ok p cid spent xv)
    (htm : ¬ (card_target cid = "self" ∨ card_target cid = "none"))
    (hnoalive : g.players.filter (fun pl => pl.alive && pl.user_id != pid) = [])
    (heff : ∀ g1, apply_immediate_effect shuffle rand g1
        { p with energy := p.energy - spent } cid none xv =
        { p with energy := p.energy - spent,
                 cards_played_this_round := p.cards_played_this_round ++ [cid] }) :
    playcard shuffle rand g pid idx =
      .played (setPlayer { g with actions := g.actions ++ [⟨pid, cid, none, xv⟩] } pid
        { p with energy := p.energy - spent,
                 cards_played_this_round := p.cards_played_this_round ++ [cid],
                 discard := p.discard ++ [cid],
                 hand := p.hand.eraseIdx idx }) := by
  unfold playcard
  rw [hval]
  simp only []
  rw [if_neg htm, hnoalive, if_pos rfl, heff]

/-- C7 witness: playing BASE_VOTE with no alive target; energy 3 → 2 stays
spent, the card is discarded and a null-target action is logged. -/
theorem C7_no_target_witness :
    play_validate gNoTgt 1 0 = .ok pNoTgt "BASE_VOTE" 1 0
    ∧ ¬ (card_target "BASE_VOTE" = "self" ∨ card_target "BASE_VOTE" = "none")
    ∧ gNoTgt.players.filter (fun pl => pl.alive && pl.user_id != 1) = []
    ∧ playcard idShuffle rand0 gNoTgt 1 0 =
        .played (setPlayer { gNoTgt with actions := [⟨1, "BASE_VOTE", none, 0⟩] } 1
          { pNoTgt with energy := 2,
                        cards_played_this_round := ["BASE_VOTE"],
                        discard := ["BASE_VOTE"],
                        hand := [] }) := by
  refine ⟨rfl, by decide, rfl, ?_⟩
  have h := C7_no_eligible_target_keeps_energy_spent idShuffle rand0 gNoTgt 1 0
    pNoTgt "BASE_VOTE" 1 0 rfl (by decide) rfl (fun g1 => rfl)
  exact h

/-! Energy bookkeeping lemmas: the deck primitives never touch `energy`,
and every effect block either keeps it or adds to it. -/

theorem reshuffle_energy (shuffle : List String → List String) (p : PlayerState) :
    (reshuffle_if_needed shuffle p).energy = p.energy := by
  unfold reshuffle_if_needed
  split <;> rfl

theorem draw_one_energy (shuffle : List String → List String) (p : PlayerState) :
    (draw_one shuffle p).1.energy = p.energy := by
  unfold draw_one
  simp only []
  split <;> exact reshuffle_energy shuffle p

theorem draw_cards_energy (shuffle : List String → List String) (n : Nat) :
    ∀ p : PlayerState, ((draw_cards shuffle p n).1).energy = p.energy := by
  induction n with
  | zero => intro p; rfl
  | succ n ih =>
    intro p
    unfold draw_cards
    have hd := draw_one_energy shuffle p
    cases h : draw_one shuffle p with
    | mk p1 oc =>
      rw [h] at hd
      cases oc
      · exact hd
      · simp only []
        rw [ih p1]
        exact hd

theorem discard_random_energy (rand : Nat → Nat) (k : Nat) :
    ∀ p : PlayerState, (discard_random rand p k).energy = p.energy := by
  induction k with
  | zero => intro p; rfl
  | succ k ih =>
    intro p
    unfold discard_random
    split
    · rfl
    · rw [ih]

theorem add_curse_energy (n : Nat) :
    ∀ p : PlayerState, (add_curse_to_draw_pile p n).energy = p.energy := by
  induction n with
  | zero => intro p; rfl
  | succ n ih =>
    intro p
    unfold add_curse_to_draw_pile
    rw [ih]

theorem eff_draw_simple_energy (shuffle : List String → List String)
    (cid : String) (p : PlayerState) :
    (eff_draw_simple shuffle cid p).energy = p.energy := by
  unfold eff_draw_simple
  repeat' split
  all_goals simp [draw_cards_energy]

theorem eff_balance_energy (shuffle : List String → List String) (rand : Nat → Nat)
    (cid : String) (p : PlayerState) :
    (eff_balance shuffle rand cid p).energy = p.energy := by
  unfold eff_balance
  repeat' split
  all_goals simp [apply_ite PlayerState.energy, draw_cards_energy, discard_random_energy]

theorem eff_vote_throw_energy (shuffle : List String → List String) (rand : Nat → Nat)
    (cid : String) (p : PlayerState) :
    (eff_vote_throw shuffle rand cid p).energy = p.energy := by
  unfold eff_vote_throw
  repeat' split
  all_goals simp [apply_ite PlayerState.energy, draw_cards_energy, discard_random_energy]

theorem eff_backpack_energy (shuffle : List String → List String) (rand : Nat → Nat)
    (cid : String) (p : PlayerState) :
    (eff_backpack shuffle rand cid p).energy = p.energy := by
  unfold eff_backpack
  repeat' split
  all_goals simp [apply_ite PlayerState.energy, draw_cards_energy, discard_random_energy]

theorem eff_gamble_energy (shuffle : List String → List String)
    (cid : String) (p : PlayerState) :
    (eff_gamble shuffle cid p).energy = p.energy := by
  unfold eff_gamble
  repeat' split
  all_goals simp [draw_cards_energy]

theorem eff_escape_energy (shuffle : List String → List String)
    (cid : String) (p : PlayerState) :
    (eff_escape shuffle cid p).energy = p.energy := by
  unfold eff_escape
  repeat' split
  all_goals simp [draw_cards_energy]

theorem eff_bring_it_on_energy (shuffle : List String → List String)
    (cid : String) (p : PlayerState) :
    (eff_bring_it_on shuffle cid p).energy = p.energy := by
  unfold eff_bring_it_on
  repeat' split
  all_goals simp [draw_cards_energy]

theorem eff_flip_energy (shuffle : List String → List String)
    (cid : String) (p : PlayerState) :
    (eff_flip shuffle cid p).energy = p.energy := by
  unfold eff_flip
  repeat' split
  all_goals simp [draw_cards_energy]

theorem eff_group_talk_energy (cid : String) (p : PlayerState) :
    (eff_group_talk cid p).energy = p.energy := by
  unfold eff_group_talk
  repeat' split
  all_goals rfl

theorem eff_energy_battery_energy (cid : String) (p : PlayerState) :
    (eff_energy_battery cid p).energy = p.energy := by
  unfold eff_energy_battery
  split <;> rfl

theorem eff_energy_surge_mono (cid : String) (p : PlayerState) :
    p.energy ≤ (eff_energy_surge cid p).energy := by
  unfold eff_energy_surge
  split
  · dsimp only
    omega
  · exact le_refl _

theorem eff_turbo_time_mono (cid : String) (p : PlayerState) :
    p.energy ≤ (eff_turbo_time cid p).energy := by
  unfold eff_turbo_time
  repeat' split
  all_goals (try dsimp only)
  all_goals omega

theorem eff_curse_energy (cid : String) (p : PlayerState) :
    (eff_curse cid p).energy = p.energy := by
  unfold eff_curse
  split
  · exact add_curse_energy 1 p
  · rfl

theorem eff_survive_energy (rand : Nat → Nat) (cid : String) (p : PlayerState) :
    (eff_survive rand cid p).energy = p.energy := by
  unfold eff_survive
  repeat' split
  all_goals simp [apply_ite PlayerState.energy, discard_random_energy]

theorem eff_trash_mono (rand : Nat → Nat) (cid : String) (p : PlayerState) :
    p.energy ≤ (eff_trash rand cid p).energy := by
  unfold eff_trash
  repeat' split
  all_goals simp [apply_ite PlayerState.energy, discard_random_energy]

/-- The immediate-effect pipeline never lowers energy (it only draws,
discards, banks bonuses, inserts curses, or ADDS energy). -/
theorem apply_immediate_effect_energy_mono (shuffle : List String → List String)
    (rand : Nat → Nat) (g : GameState) (p0 : PlayerState) (cid : String)
    (t : Option PlayerState) (x : Int) :
    p0.energy ≤ (apply_immediate_effect shuffle rand g p0 cid t x).energy := by
  unfold apply_immediate_effect
  refine le_trans ?_ (eff_trash_mono rand cid _)
  rw [eff_survive_energy, eff_curse_energy]
  refine le_trans ?_ (eff_turbo_time_mono cid _)
  refine le_trans ?_ (eff_energy_surge_mono cid _)
  rw [eff_energy_battery_energy, eff_group_talk_energy, eff_flip_energy,
      eff_bring_it_on_energy, eff_escape_energy, eff_gamble_energy,
      eff_backpack_energy, eff_vote_throw_energy, eff_balance_energy,
      eff_draw_simple_energy]
  exact le_refl _

theorem findPlayer_mem (g : GameState) (pid : Nat) (p : PlayerState)
    (h : findPlayer g pid = some p) : p ∈ g.players :=
  List.mem_of_find?_eq_some h

theorem findPlayer_user_id (g : GameState) (pid : Nat) (p : PlayerState)
    (h : findPlayer g pid = some p) : p.user_id = pid := by
  have h2 := List.find?_some h
  simpa using h2

theorem find?_map_set (l : List PlayerState) (pid : Nat) (q : PlayerState)
    (hq : q.user_id = pid)
    (h : (l.find? (fun a => a.user_id == pid)).isSome = true) :
    (l.map (fun a => if a.user_id == pid then q else a)).find?
      (fun a => a.user_id == pid) = some q := by
  induction l with
  | nil => simp [List.find?] at h
  | cons a t ih =>
    by_cases hb : (a.user_id == pid) = true
    · have hq2 : (q.user_id == pid) = true := by simp [hq]
      simp only [List.map_cons, if_pos hb, List.find?_cons, hq2]
    · have hb2 : (a.user_id == pid) = false := by simpa using hb
      simp only [List.find?_cons, hb2] at h
      simp only [List.map_cons, List.find?_cons]
      rw [if_neg hb, hb2]
      exact ih h

theorem findPlayer_setPlayer_same (g : GameState) (pid : Nat) (p q : PlayerState)
    (hf : findPlayer g pid = some p) (hq : q.user_id = pid) :
    findPlayer (setPlayer g pid q) pid = some q := by
  unfold findPlayer setPlayer modifyPlayer
  exact find?_map_set g.players pid q hq (by unfold findPlayer at hf; simp [hf])

theorem energies_nonneg_setPlayer (g : GameState) (pid : Nat) (q : PlayerState)
    (hg : energies_nonneg g) (hq : 0 ≤ q.energy) :
    energies_nonneg (setPlayer g pid q) := by
  intro x hx
  unfold setPlayer modifyPlayer at hx
  simp only [List.mem_map] at hx
  obtain ⟨a, ha, hax⟩ := hx
  by_cases hb : (a.user_id == pid) = true
  · rw [if_pos hb] at hax
    subst hax
    exact hq
  · rw [if_neg hb] at hax
    subst hax
    exact hg a ha

/-- Extracting what a successful validation guarantees: the found, alive
player; a valid index; the checked card id; and a nonnegative cost that was
covered by the player's energy. -/
theorem play_validate_ok_facts (g : GameState) (pid idx : Nat) (p : PlayerState)
    (cid : String) (spent xv : Int)
    (h : play_validate g pid idx = .ok p cid spent xv) :
    findPlayer g pid = some p ∧ p.alive = true ∧ idx < p.hand.length
    ∧ cid = p.hand.getD idx "" ∧ 0 ≤ spent ∧ spent ≤ p.energy := by
  unfold play_validate at h
  cases hf : findPlayer g pid <;> rw [hf] at h
  · cases h
  · rename_i q
    simp only [] at h
    by_cases ha : q.alive = true
    · rw [if_neg (not_not_intro ha)] at h
      by_cases hidx : idx ≥ q.hand.length
      · rw [if_pos hidx] at h
        cases h
      · rw [if_neg hidx] at h
        cases hc : card_cost (q.hand.getD idx "") <;> rw [hc] at h <;>
          (try simp only [] at h)
        · rename_i c
          by_cases he : q.energy < (c : Int)
          · rw [if_pos he] at h
            cases h
          · rw [if_neg he] at h
            cases h
            exact ⟨rfl, ha, by omega, rfl, Int.natCast_nonneg c, le_of_not_lt he⟩
        · by_cases he : q.energy ≤ 0
          · rw [if_pos he] at h
            cases h
          · rw [if_neg he] at h
            cases h
            exact ⟨rfl, ha, by omega, rfl, le_of_lt (lt_of_not_le he), le_refl _⟩
        · cases h
    · rw [if_pos ha] at h
      cases h

/-- The playcard branch preserves nonnegativity of every player's energy:
a validated play deducts no more than the player has, and effects only add. -/
theorem playcard_energies_nonneg (shuffle : List String → List String)
    (rand : Nat → Nat) (g : GameState) (pid idx : Nat)
    (hg : energies_nonneg g) :
    energies_nonneg (play_state (playcard shuffle rand g pid idx)) := by
  unfold playcard
  cases hv : play_validate g pid idx with
  | err e => exact hg
  | ok p cid spent xv =>
    obtain ⟨hf, ha, hidx, hcid, hs0, hse⟩ := play_validate_ok_facts g pid idx p cid spent xv hv
    simp only []
    have hp1 : (0:Int) ≤ p.energy - spent := by omega
    have heff : ∀ (g1 : GameState) (t : Option PlayerState),
        (0:Int) ≤ (apply_immediate_effect shuffle rand g1
          { p with energy := p.energy - spent } cid t xv).energy := by
      intro g1 t
      exact le_trans hp1 (apply_immediate_effect_energy_mono shuffle rand g1 _ cid t xv)
    by_cases h1 : card_target cid = "self" ∨ card_target cid = "none"
    · rw [if_pos h1]
      exact energies_nonneg_setPlayer _ pid _ hg (heff _ _)
    · rw [if_neg h1]
      by_cases h2 : g.players.filter (fun pl => pl.alive && pl.user_id != pid) = []
      · rw [if_pos h2]
        exact energies_nonneg_setPlayer _ pid _ hg (heff _ _)
      · rw [if_neg h2]
        exact energies_nonneg_setPlayer _ pid _ hg hp1

/-- The target branch preserves nonnegativity of every player's energy:
it never deducts energy at all. -/
theorem target_energies_nonneg (shuffle : List String → List String)
    (rand : Nat → Nat) (g : GameState) (pid idx tid : Nat) (xv : Int)
    (hg : energies_nonneg g) :
    energies_nonneg (target_state (target_callback shuffle rand g pid idx tid xv)) := by
  unfold target_callback
  cases hfp : findPlayer g pid with
  | none =>
    cases hft : findPlayer g tid <;> exact hg
  | some p =>
    cases hft : findPlayer g tid with
    | none => exact hg
    | some t =>
      have hp : (0:Int) ≤ p.energy := hg p (findPlayer_mem g pid p hfp)
      simp only []
      by_cases h1 : ¬ p.alive = true ∨ ¬ t.alive = true
      · rw [if_pos h1]
        exact hg
      · rw [if_neg h1]
        by_cases h2 : idx ≥ p.hand.length
        · rw [if_pos h2]
          exact hg
        · rw [if_neg h2]
          by_cases h3 : p.hand.getD idx "" = "ASSIST_ALLY" ∨ p.hand.getD idx "" = "ASSIST_ALLY_UG"
          · rw [if_pos h3]
            exact energies_nonneg_setPlayer _ pid _ hg hp
          · rw [if_neg h3]
            refine energies_nonneg_setPlayer _ pid _ hg ?_
            exact le_trans hp (apply_immediate_effect_energy_mono shuffle rand _ p _ (some t) xv)

/-- Energy is untouched by any sequence of deck-lifecycle operations. -/
theorem apply_deck_ops_energy (shuffle : List String → List String)
    (rand : Nat → Nat) (ops : List DeckOp) :
    ∀ p : PlayerState, (apply_deck_ops shuffle rand p ops).energy = p.energy := by
  induction ops with
  | nil => intro p; rfl
  | cons op t ih =>
    intro p
    show (apply_deck_ops shuffle rand (apply_deck_op shuffle rand p op) t).energy = p.energy
    rw [ih]
    cases op with
    | drawOne => exact draw_one_energy shuffle p
    | drawCards n => exact draw_cards_energy shuffle n p
    | discardRandom k => exact discard_random_energy rand k p

end LastHand

namespace LastHand

/-- Under the standard lookup facts, validation reduces to the pure cost
check. -/
theorem play_validate_eq (g : GameState) (pid idx : Nat) (p : PlayerState)
    (hf : findPlayer g pid = some p) (ha : p.alive = true)
    (hidx : idx < p.hand.length) :
    play_validate g pid idx =
      match card_cost (p.hand.getD idx "") with
      | .unplayable => .err .unplayableCard
      | .x =>
        if p.energy ≤ 0 then .err .noEnergyX
        else .ok p (p.hand.getD idx "") p.energy p.energy
      | .nat c =>
        if p.energy < (c : Int) then .err .notEnoughEnergy
        else .ok p (p.hand.getD idx "") (c : Int) 0 := by
  unfold play_validate
  rw [hf]
  simp only []
  rw [if_neg (not_not_intro ha), if_neg (by omega : ¬ idx ≥ p.hand.length)]

/-- C4: cost validation and debiting. (1) An unplayable-cost card is always
rejected. (2) An integer-cost card is accepted exactly when energy covers
the cost, (3) and then the debited amount is exactly that cost with
`xValue = 0`. (4) An X-cost card is accepted exactly when energy is
strictly positive, (5) and then it debits ALL current energy, binding
`xValue` to the pre-play energy. (6) The deduction really lands: a play
awaiting target selection stores the player at `energy − spent`. (7)(8) No
play — playcard call or target completion — makes any player's energy
negative. -/
theorem C4_cost_rules :
    (∀ g pid idx (p : PlayerState), findPlayer g pid = some p → p.alive = true →
      idx < p.hand.length → card_cost (p.hand.getD idx "") = .unplayable →
      play_validate g pid idx = .err .unplayableCard)
    ∧ (∀ g pid idx (p : PlayerState) (c : Nat), findPlayer g pid = some p →
      p.alive = true → idx < p.hand.length →
      card_cost (p.hand.getD idx "") = .nat c →
      ((∃ spent xv, play_validate g pid idx = .ok p (p.hand.getD idx "") spent xv)
        ↔ (c : Int) ≤ p.energy))
    ∧ (∀ g pid idx (p : PlayerState) cid spent xv (c : Nat),
      play_validate g pid idx = .ok p cid spent xv → card_cost cid = .nat c →
      spent = (c : Int) ∧ xv = 0)
    ∧ (∀ g pid idx (p : PlayerState), findPlayer g pid = some p → p.alive = true →
      idx < p.hand.length → card_cost (p.hand.getD idx "") = .x →
      ((∃ spent xv, play_validate g pid idx = .ok p (p.hand.getD idx "") spent xv)
        ↔ 0 < p.energy))
    ∧ (∀ g pid idx (p : PlayerState) cid spent xv,
      play_validate g pid idx = .ok p cid spent xv → card_cost cid = .x →
      spent = p.energy ∧ xv = p.energy)
    ∧ (∀ shuffle rand g pid idx g1 spent xv (p : PlayerState),
      playcard shuffle rand g pid idx = .awaitTarget g1 spent xv →
      findPlayer g pid = some p →
      findPlayer g1 pid = some { p with energy := p.energy - spent })
    ∧ (∀ shuffle rand g pid idx, energies_nonneg g →
      energies_nonneg (play_state (playcard shuffle rand g pid idx)))
    ∧ (∀ shuffle rand g pid idx tid xv, energies_nonneg g →
      energies_nonneg (target_state (target_callback shuffle rand g pid idx tid xv))) := by
  refine ⟨?_, ?_, ?_, ?_, ?_, ?_, ?_, ?_⟩
  · intro g pid idx p hf ha hidx hc
    rw [play_validate_eq g pid idx p hf ha hidx, hc]
  · intro g pid idx p c hf ha hidx hc
    rw [play_validate_eq g pid idx p hf ha hidx, hc]
    simp only []
    constructor
    · rintro ⟨spent, xv, heq⟩
      by_cases he : p.energy < (c : Int)
      · rw [if_pos he] at heq
        cases heq
      · omega
    · intro hle
      refine ⟨(c : Int), 0, ?_⟩
      rw [if_neg (by omega : ¬ p.energy < (c : Int))]
  · intro g pid idx p cid spent xv c hok hc
    obtain ⟨hf, ha, hidx, hcid, _, _⟩ :=
      play_validate_ok_facts g pid idx p cid spent xv hok
    rw [play_validate_eq g pid idx p hf ha hidx, ← hcid, hc] at hok
    simp only [] at hok
    by_cases he : p.energy < (c : Int)
    · rw [if_pos he] at hok
      cases hok
    · rw [if_neg he] at hok
      cases hok
      exact ⟨rfl, rfl⟩
  · intro g pid idx p hf ha hidx hc
    rw [play_validate_eq g pid idx p hf ha hidx, hc]
    simp only []
    constructor
    · rintro ⟨spent, xv, heq⟩
      by_cases he : p.energy ≤ 0
      · rw [if_pos he] at heq
        cases heq
      · omega
    · intro hlt
      refine ⟨p.energy, p.energy, ?_⟩
      rw [if_neg (by omega : ¬ p.energy ≤ 0)]
  · intro g pid idx p cid spent xv hok hc
    obtain ⟨hf, ha, hidx, hcid, _, _⟩ :=
      play_validate_ok_facts g pid idx p cid spent xv hok
    rw [play_validate_eq g pid idx p hf ha hidx, ← hcid, hc] at hok
    simp only [] at hok
    by_cases he : p.energy ≤ 0
    · rw [if_pos he] at hok
      cases hok
    · rw [if_neg he] at hok
      cases hok
      exact ⟨rfl, rfl⟩
  · intro shuffle rand g pid idx g1 spent xv p h hfp
    unfold playcard at h
    cases hv : play_validate g pid idx <;> rw [hv] at h
    · cases h
    · rename_i q cid s x
      obtain ⟨hf, _, _, _, _, _⟩ := play_validate_ok_facts g pid idx q cid s x hv
      simp only [] at h
      split at h
      · cases h
      · split at h
        · cases h
        · cases h
          have hqp : q = p := by
            rw [hf] at hfp
            exact Option.some.inj hfp
          subst hqp
          exact findPlayer_setPlayer_same g pid q _ hf (findPlayer_user_id g pid q hf)
  · exact playcard_energies_nonneg
  · exact target_energies_nonneg

/-- C4 witness: concrete runs of each rule — ENERGY_SURGE (integer cost 1,
energy 3) accepted; TORNADO (X-cost, energy 2) accepted binding
`xValue = 2`; CURSE rejected as unplayable; nonnegativity preserved on a
concrete play. -/
theorem C4_cost_rules_witness :
    (∃ spent xv, play_validate gSurge 1 0 = .ok pSurge "ENERGY_SURGE" spent xv)
    ∧ (∃ spent xv, play_validate gTorn 1 0 = .ok pTorn "TORNADO" spent xv)
    ∧ play_validate gCurse 1 0 = .err .unplayableCard
    ∧ (∀ spent xv, play_validate gTorn 1 0 = .ok pTorn "TORNADO" spent xv →
        spent = 2 ∧ xv = 2)
    ∧ energies_nonneg (play_state (playcard idShuffle rand0 gSurge 1 0)) := by
  refine ⟨?_, ?_, ?_, ?_, ?_⟩
  · exact (C4_cost_rules.2.1 gSurge 1 0 pSurge 1 rfl rfl (by decide) rfl).mpr (by decide)
  · exact (C4_cost_rules.2.2.2.1 gTorn 1 0 pTorn rfl rfl (by decide) rfl).mpr (by decide)
  · exact C4_cost_rules.1 gCurse 1 0 pCurse rfl rfl (by decide) rfl
  · intro spent xv h
    exact C4_cost_rules.2.2.2.2.1 gTorn 1 0 pTorn "TORNADO" spent xv h rfl
  · exact C4_cost_rules.2.2.2.2.2.2.1 idShuffle rand0 gSurge 1 0
      (by unfold energies_nonneg; decide)

/-- C5 amended: the lower bound holds — every playcard call, target
completion, immediate effect and deck operation preserves nonnegative
energy — but the upper bound `energy ≤ energyMax` is NOT an invariant:
play-time energy grants are uncapped (see the counterexample, where
ENERGY_SURGE ends at energy 4 with cap 3). -/
theorem C5_energy_nonneg_invariant :
    (∀ shuffle rand g pid idx, energies_nonneg g →
      energies_nonneg (play_state (playcard shuffle rand g pid idx)))
    ∧ (∀ shuffle rand g pid idx tid xv, energies_nonneg g →
      energies_nonneg (target_state (target_callback shuffle rand g pid idx tid xv)))
    ∧ (∀ shuffle rand g (p : PlayerState) cid t x,
      p.energy ≤ (apply_immediate_effect shuffle rand g p cid t x).energy)
    ∧ (∀ shuffle rand (p : PlayerState) ops,
      (apply_deck_ops shuffle rand p ops).energy = p.energy) :=
  ⟨playcard_energies_nonneg, target_energies_nonneg,
   fun shuffle rand g p cid t x =>
     apply_immediate_effect_energy_mono shuffle rand g p cid t x,
   fun shuffle rand p ops => apply_deck_ops_energy shuffle rand ops p⟩

/-- C5 witness: the invariant applied to concrete calls. -/
theorem C5_energy_nonneg_witness :
    energies_nonneg gSurge
    ∧ energies_nonneg (play_state (playcard idShuffle rand0 gSurge 1 0))
    ∧ energies_nonneg (target_state (target_callback idShuffle rand0 gRej 1 0 2 0)) :=
  ⟨by unfold energies_nonneg; decide,
   C5_energy_nonneg_invariant.1 idShuffle rand0 gSurge 1 0
     (by unfold energies_nonneg; decide),
   C5_energy_nonneg_invariant.2.1 idShuffle rand0 gRej 1 0 2 0
     (by unfold energies_nonneg; decide)⟩

end LastHand

namespace LastHand

/-! Pool conservation: the multiset of owned cards across deck, discard and
hand is invariant under the deck primitives. -/

theorem pool_reshuffle (shuffle : List String → List String)
    (hs : ∀ l, (shuffle l).Perm l) (p : PlayerState) :
    pool (reshuffle_if_needed shuffle p) = pool p := by
  unfold reshuffle_if_needed pool
  split
  · rename_i h
    apply Multiset.coe_eq_coe.mpr
    simp only [h.1, List.nil_append, List.append_nil]
    exact (hs p.discard).append_right p.hand
  · rfl

theorem draw_one_cases (shuffle : List String → List String) (p : PlayerState) :
    (draw_one shuffle p = (reshuffle_if_needed shuffle p, none)
      ∧ (reshuffle_if_needed shuffle p).deck = []
      ∧ (reshuffle_if_needed shuffle p).discard = [])
    ∨ (∃ c, (reshuffle_if_needed shuffle p).deck.getLast? = some c
      ∧ draw_one shuffle p =
        ({ reshuffle_if_needed shuffle p with
             deck := (reshuffle_if_needed shuffle p).deck.dropLast,
             hand := (reshuffle_if_needed shuffle p).hand ++ [c] }, some c)) := by
  unfold draw_one
  simp only []
  cases hl : (reshuffle_if_needed shuffle p).deck.getLast? with
  | none =>
    left
    have hdeck : (reshuffle_if_needed shuffle p).deck = [] :=
      List.getLast?_eq_none_iff.mp hl
    refine ⟨rfl, hdeck, ?_⟩
    unfold reshuffle_if_needed at hdeck ⊢
    by_cases hc : p.deck = [] ∧ p.discard ≠ []
    · rw [if_pos hc]
    · rw [if_neg hc]
      rw [if_neg hc] at hdeck
      by_cases hd : p.discard = []
      · exact hd
      · exact absurd ⟨hdeck, hd⟩ hc
  | some c => exact Or.inr ⟨c, rfl, rfl⟩

theorem pool_draw_one (shuffle : List String → List String)
    (hs : ∀ l, (shuffle l).Perm l) (p : PlayerState) :
    pool (draw_one shuffle p).1 = pool p := by
  rcases draw_one_cases shuffle p with ⟨heq, _, _⟩ | ⟨c, hl, heq⟩
  · rw [heq]
    exact pool_reshuffle shuffle hs p
  · rw [heq]
    rw [← pool_reshuffle shuffle hs p]
    set q := reshuffle_if_needed shuffle p with hq
    have hne : q.deck ≠ [] := by
      intro h0
      rw [h0] at hl
      cases hl
    obtain ⟨dl, hdl⟩ : ∃ dl, q.deck = dl ++ [c] := by
      refine ⟨q.deck.dropLast, ?_⟩
      have hlast := List.dropLast_append_getLast hne
      have hc : q.deck.getLast hne = c := by
        rw [List.getLast?_eq_getLast q.deck hne] at hl
        exact Option.some.inj hl
      rw [hc] at hlast
      exact hlast.symm
    unfold pool
    dsimp only
    rw [hdl, List.dropLast_concat]
    simp only [← Multiset.coe_add]
    abel

theorem pool_draw_cards (shuffle : List String → List String)
    (hs : ∀ l, (shuffle l).Perm l) (n : Nat) :
    ∀ p : PlayerState, pool (draw_cards shuffle p n).1 = pool p := by
  induction n with
  | zero => intro p; rfl
  | succ n ih =>
    intro p
    unfold draw_cards
    have h1 := pool_draw_one shuffle hs p
    cases h : draw_one shuffle p with
    | mk p1 oc =>
      rw [h] at h1
      cases oc
      · exact h1
      · simp only []
        rw [ih p1]
        exact h1

theorem getD_cons_eraseIdx_perm (l : List String) (i : Nat) (hi : i < l.length)
    (d : String) : l.Perm (l.getD i d :: l.eraseIdx i) := by
  induction l generalizing i with
  | nil => simp at hi
  | cons x xs ih =>
    cases i with
    | zero =>
      rw [List.getD_cons_zero, List.eraseIdx_cons_zero]
    | succ n =>
      have hn : n < xs.length := by simpa using hi
      rw [List.getD_cons_succ, List.eraseIdx_cons_succ]
      exact List.Perm.trans (List.Perm.cons x (ih n hn))
        (List.Perm.swap (xs.getD n d) x (xs.eraseIdx n))

theorem pool_discard_random (rand : Nat → Nat) (k : Nat) :
    ∀ p : PlayerState, pool (discard_random rand p k) = pool p := by
  induction k with
  | zero => intro p; rfl
  | succ k ih =>
    intro p
    unfold discard_random
    split
    · rfl
    · rename_i hne
      rw [ih]
      unfold pool
      dsimp only
      have hlen : rand k % p.hand.length < p.hand.length :=
        Nat.mod_lt _ (by
          cases hh : p.hand with
          | nil => exact absurd hh hne
          | cons a t => simp [hh])
      have hperm := getD_cons_eraseIdx_perm p.hand (rand k % p.hand.length) hlen ""
      have hh : (p.hand : Multiset String) =
          ↑(p.hand.getD (rand k % p.hand.length) "" :: p.hand.eraseIdx (rand k % p.hand.length)) :=
        Multiset.coe_eq_coe.mpr hperm
      simp only [← Multiset.coe_add]
      rw [hh]
      simp only [← Multiset.coe_add, Multiset.coe_singleton, ← Multiset.cons_coe,
                 ← Multiset.singleton_add]
      abel

theorem pool_apply_deck_ops (shuffle : List String → List String) (rand : Nat → Nat)
    (hs : ∀ l, (shuffle l).Perm l) (ops : List DeckOp) :
    ∀ p : PlayerState, pool (apply_deck_ops shuffle rand p ops) = pool p := by
  induction ops with
  | nil => intro p; rfl
  | cons op t ih =>
    intro p
    show pool (apply_deck_ops shuffle rand (apply_deck_op shuffle rand p op) t) = pool p
    rw [ih]
    cases op with
    | drawOne => exact pool_draw_one shuffle hs p
    | drawCards n => exact pool_draw_cards shuffle hs n p
    | discardRandom k => exact pool_discard_random rand k p

theorem pool_add_curse (p : PlayerState) :
    pool (add_curse_to_draw_pile p 1) = "CURSE" ::ₘ pool p := by
  show pool { p with discard := p.discard ++ ["CURSE"] } = "CURSE" ::ₘ pool p
  unfold pool
  dsimp only
  simp only [← Multiset.coe_add, Multiset.coe_singleton, ← Multiset.singleton_add]
  abel

end LastHand

namespace LastHand

/-- C2: the multiset union of a player's deck, discard and hand is invariant
under every sequence of draw / reshuffle / random-discard operations (for
any permutation-valued shuffle); it grows by exactly the picked card at a
draft pick-up and by exactly one CURSE at a curse insertion; a camp upgrade
preserves its cardinality (in-place substitution); and a camp remove
shrinks it by exactly the removed card. -/
theorem C2_pool_conservation :
    (∀ shuffle rand (p : PlayerState) ops, (∀ l, (shuffle l).Perm l) →
      pool (apply_deck_ops shuffle rand p ops) = pool p)
    ∧ (∀ g pid cid g1 (p : PlayerState), reward_pick g pid cid = .picked g1 →
      findPlayer g pid = some p →
      ∃ p1, findPlayer g1 pid = some p1 ∧ pool p1 = cid ::ₘ pool p)
    ∧ (∀ p : PlayerState, pool (add_curse_to_draw_pile p 1) = "CURSE" ::ₘ pool p)
    ∧ (∀ g pid cid g1 (p : PlayerState), camp_pick_upgrade g pid cid = .done g1 →
      findPlayer g pid = some p →
      ∃ p1, findPlayer g1 pid = some p1
        ∧ Multiset.card (pool p1) = Multiset.card (pool p))
    ∧ (∀ g pid cid g1 (p : PlayerState), camp_pick_remove g pid cid = .done g1 →
      findPlayer g pid = some p →
      ∃ p1, findPlayer g1 pid = some p1 ∧ pool p1 = (pool p).erase cid
        ∧ Multiset.card (pool p1) + 1 = Multiset.card (pool p)) := by
  refine ⟨?_, ?_, ?_, ?_, ?_⟩
  · intro shuffle rand p ops hs
    exact pool_apply_deck_ops shuffle rand hs ops p
  · intro g pid cid g1 p h hf
    unfold reward_pick at h
    rw [hf] at h
    simp only [] at h
    split at h
    · cases h
    · cases h
      refine ⟨{ p with deck := p.deck ++ [cid], draft_done := true }, ?_, ?_⟩
      · exact findPlayer_setPlayer_same g pid p _ hf (findPlayer_user_id g pid p hf)
      · unfold pool
        dsimp only
        simp only [← Multiset.coe_add, Multiset.coe_singleton, ← Multiset.singleton_add]
        abel
  · exact pool_add_curse
  · intro g pid cid g1 p h hf
    unfold camp_pick_upgrade at h
    rw [hf] at h
    simp only [] at h
    split at h
    · cases h
    · split at h
      · cases h
      · rename_i u hu
        split at h
        · rename_i hmem
          cases h
          refine ⟨_, findPlayer_setPlayer_same g pid p _ hf
            (findPlayer_user_id g pid p hf), ?_⟩
          unfold pool
          dsimp only
          simp [Multiset.coe_card, List.length_append, List.length_set]
        · split at h
          · rename_i hmem
            cases h
            refine ⟨_, findPlayer_setPlayer_same g pid p _ hf
              (findPlayer_user_id g pid p hf), ?_⟩
            unfold pool
            dsimp only
            simp [Multiset.coe_card, List.length_append, List.length_set]
          · cases h
  · intro g pid cid g1 p h hf
    unfold camp_pick_remove at h
    rw [hf] at h
    simp only [] at h
    split at h
    · cases h
    · split at h
      · rename_i hmem
        cases h
        refine ⟨_, findPlayer_setPlayer_same g pid p _ hf
          (findPlayer_user_id g pid p hf), ?_, ?_⟩
        · unfold pool
          dsimp only
          rw [Multiset.coe_erase,
              List.erase_append_left _ (List.mem_append_left _ hmem),
              List.erase_append_left _ hmem]
        · unfold pool
          dsimp only
          have h1 := List.length_erase_of_mem hmem
          have h2 := List.length_pos_of_mem hmem
          simp only [Multiset.coe_card, List.length_append]
          omega
      · split at h
        · rename_i hno hmem
          cases h
          refine ⟨_, findPlayer_setPlayer_same g pid p _ hf
            (findPlayer_user_id g pid p hf), ?_, ?_⟩
          · unfold pool
            dsimp only
            rw [Multiset.coe_erase,
                List.erase_append_left _ (List.mem_append_right _ hmem),
                List.erase_append_right _ hno]
          · unfold pool
            dsimp only
            have h1 := List.length_erase_of_mem hmem
            have h2 := List.length_pos_of_mem hmem
            simp only [Multiset.coe_card, List.length_append]
            omega
        · cases h

/-- C2 witness: the invariance on a concrete operation sequence, and the
three growth/shrink rules at concrete picks. -/
theorem C2_pool_witness :
    pool (apply_deck_ops idShuffle rand0 pCamp
      [.drawOne, .discardRandom 1, .drawCards 2]) = pool pCamp
    ∧ (∃ p1, findPlayer (pick_state (reward_pick gDraftPick 1 "PLUS_ONE_VOTE")) 1
        = some p1 ∧ pool p1 = "PLUS_ONE_VOTE" ::ₘ pool pDraft)
    ∧ (∃ p1, findPlayer (camp_state (camp_pick_upgrade gCamp 1 "BASE_VOTE")) 1
        = some p1 ∧ Multiset.card (pool p1) = Multiset.card (pool pCamp))
    ∧ (∃ p1, findPlayer (camp_state (camp_pick_remove gCamp 1 "BASE_VOTE")) 1
        = some p1 ∧ pool p1 = (pool pCamp).erase "BASE_VOTE"
        ∧ Multiset.card (pool p1) + 1 = Multiset.card (pool pCamp)) := by
  refine ⟨?_, ?_, ?_, ?_⟩
  · exact C2_pool_conservation.1 idShuffle rand0 pCamp
      [.drawOne, .discardRandom 1, .drawCards 2] (fun l => List.Perm.refl l)
  · exact C2_pool_conservation.2.1 gDraftPick 1 "PLUS_ONE_VOTE" _ pDraft rfl rfl
  · exact C2_pool_conservation.2.2.2.1 gCamp 1 "BASE_VOTE" _ pCamp rfl rfl
  · exact C2_pool_conservation.2.2.2.2 gCamp 1 "BASE_VOTE" _ pCamp rfl rfl

end LastHand

namespace LastHand

theorem reshuffle_hand (shuffle : List String → List String) (p : PlayerState) :
    (reshuffle_if_needed shuffle p).hand = p.hand := by
  unfold reshuffle_if_needed
  split <;> rfl

/-- When the deck is non-empty, `draw_one` pops exactly the top (the list
end) with no reshuffle. -/
theorem draw_one_top (shuffle : List String → List String) (p : PlayerState)
    (h : p.deck ≠ []) :
    ∃ c, p.deck.getLast? = some c ∧ draw_one shuffle p =
      ({ p with deck := p.deck.dropLast, hand := p.hand ++ [c] }, some c) := by
  have hres : reshuffle_if_needed shuffle p = p := by
    unfold reshuffle_if_needed
    rw [if_neg]
    intro hc
    exact h hc.1
  refine ⟨p.deck.getLast h, List.getLast?_eq_getLast p.deck h, ?_⟩
  unfold draw_one
  rw [hres]
  dsimp only
  rw [List.getLast?_eq_getLast p.deck h]

/-- With deck and discard both empty, `draw_one` is a no-op returning
nothing. -/
theorem draw_one_empty (shuffle : List String → List String) (p : PlayerState)
    (hd : p.deck = []) (hc : p.discard = []) :
    draw_one shuffle p = (p, none) := by
  have hres : reshuffle_if_needed shuffle p = p := by
    unfold reshuffle_if_needed
    rw [if_neg]
    intro h
    exact h.2 hc
  unfold draw_one
  rw [hres]
  dsimp only
  rw [hd]
  rfl

/-- With deck and discard both empty, drawing stops early with no error. -/
theorem draw_cards_empty (shuffle : List String → List String) (p : PlayerState)
    (n : Nat) (hd : p.deck = []) (hc : p.discard = []) :
    draw_cards shuffle p n = (p, []) := by
  cases n with
  | zero => rfl
  | succ n =>
    unfold draw_cards
    rw [draw_one_empty shuffle p hd hc]

/-- Drawn cards append to the hand in draw order, and at most `n` cards are
drawn. -/
theorem draw_cards_hand_order (shuffle : List String → List String) (n : Nat) :
    ∀ p : PlayerState,
      (draw_cards shuffle p n).1.hand = p.hand ++ (draw_cards shuffle p n).2
      ∧ (draw_cards shuffle p n).2.length ≤ n := by
  induction n with
  | zero => intro p; exact ⟨by simp [draw_cards], by simp [draw_cards]⟩
  | succ n ih =>
    intro p
    unfold draw_cards
    rcases draw_one_cases shuffle p with ⟨heq, _, _⟩ | ⟨c, hl, heq⟩
    · rw [heq]
      refine ⟨?_, by simp⟩
      rw [reshuffle_hand, List.append_nil]
    · rw [heq]
      simp only []
      obtain ⟨ih1, ih2⟩ := ih { reshuffle_if_needed shuffle p with
        deck := (reshuffle_if_needed shuffle p).deck.dropLast,
        hand := (reshuffle_if_needed shuffle p).hand ++ [c] }
      constructor
      · rw [ih1]
        dsimp only
        rw [reshuffle_hand, List.append_assoc]
        rfl
      · simpa using ih2

/-- Repeated reshuffling is idempotent. -/
theorem reshuffle_idem (shuffle : List String → List String) (p : PlayerState) :
    reshuffle_if_needed shuffle (reshuffle_if_needed shuffle p) =
      reshuffle_if_needed shuffle p := by
  by_cases hc : p.deck = [] ∧ p.discard ≠ []
  · unfold reshuffle_if_needed
    simp only [if_pos hc]
    rw [if_neg]
    intro h
    exact h.2 rfl
  · unfold reshuffle_if_needed
    simp only [if_neg hc]

theorem draw_one_reshuffle (shuffle : List String → List String) (p : PlayerState) :
    draw_one shuffle (reshuffle_if_needed shuffle p) = draw_one shuffle p := by
  unfold draw_one
  rw [reshuffle_idem]

theorem draw_cards_reshuffle (shuffle : List String → List String) (p : PlayerState)
    (n : Nat) :
    draw_cards shuffle (reshuffle_if_needed shuffle p) (n + 1) =
      draw_cards shuffle p (n + 1) := by
  unfold draw_cards
  rw [draw_one_reshuffle]

/-- Drawing `m + n` cards is drawing `m` and then `n` more (states agree;
once drawing stalls, it stays stalled). -/
theorem draw_cards_add (shuffle : List String → List String) (m n : Nat) :
    ∀ p : PlayerState,
      (draw_cards shuffle p (m + n)).1 =
        (draw_cards shuffle (draw_cards shuffle p m).1 n).1 := by
  induction m with
  | zero =>
    intro p
    rw [Nat.zero_add]
    rfl
  | succ m ih =>
    intro p
    have hadd : m + 1 + n = (m + n) + 1 := by omega
    rw [hadd]
    rcases hdo : draw_one shuffle p with ⟨p1, oc⟩
    cases oc with
    | none =>
      have hstuck : p1.deck = [] ∧ p1.discard = [] := by
        rcases draw_one_cases shuffle p with ⟨heq, h1, h2⟩ | ⟨c, hl, heq⟩
        · rw [hdo] at heq
          have hp1 : p1 = reshuffle_if_needed shuffle p := congrArg Prod.fst heq
          rw [hp1]
          exact ⟨h1, h2⟩
        · rw [hdo] at heq
          cases heq
      have e1 : draw_cards shuffle p (m + n + 1) = (p1, []) := by
        conv_lhs => rw [draw_cards, hdo]
      have e2 : draw_cards shuffle p (m + 1) = (p1, []) := by
        conv_lhs => rw [draw_cards, hdo]
      rw [e1, e2]
      simp only []
      rw [draw_cards_empty shuffle p1 n hstuck.1 hstuck.2]
    | some c =>
      have e1 : (draw_cards shuffle p (m + n + 1)).1 =
          (draw_cards shuffle p1 (m + n)).1 := by
        conv_lhs => rw [draw_cards, hdo]
      have e2 : (draw_cards shuffle p (m + 1)).1 =
          (draw_cards shuffle p1 m).1 := by
        conv_lhs => rw [draw_cards, hdo]
      rw [e1, e2, ih p1]

/-- With an empty discard, drawing `k ≤ |deck|` cards moves exactly `k`
cards deck → hand. -/
theorem draw_cards_deck_only (shuffle : List String → List String) (k : Nat) :
    ∀ p : PlayerState, p.discard = [] → k ≤ p.deck.length →
      (draw_cards shuffle p k).1.deck.length = p.deck.length - k
      ∧ (draw_cards shuffle p k).1.hand.length = p.hand.length + k
      ∧ (draw_cards shuffle p k).1.discard = [] := by
  induction k with
  | zero => intro p hd hk; exact ⟨by simp [draw_cards], by simp [draw_cards], hd⟩
  | succ k ih =>
    intro p hd hk
    have hne : p.deck ≠ [] := by
      intro h0
      rw [h0] at hk
      simp at hk
    obtain ⟨c, hl, heq⟩ := draw_one_top shuffle p hne
    unfold draw_cards
    rw [heq]
    simp only []
    have hpos : 0 < p.deck.length := List.length_pos.mpr hne
    obtain ⟨h1, h2, h3⟩ := ih { p with deck := p.deck.dropLast, hand := p.hand ++ [c] }
      hd (by simp only [List.length_dropLast]; omega)
    refine ⟨?_, ?_, h3⟩
    · rw [h1]
      simp only [List.length_dropLast]
      omega
    · rw [h2]
      simp only [List.length_append, List.length_singleton]
      omega

/-- C3: drawing takes up to `n` cards from the top of the deck, appending
them to the hand in order; when the deck runs out with a non-empty discard,
the entire discard is moved into the deck (so the new deck has the old
discard's size and the discard is empty); with both piles empty drawing
stops early with no error; and in Scenario C (deck 3 / discard 5 / empty
hand) drawing 6 ends with hand 6, deck 2, discard 0 — for ANY
length-preserving shuffle. -/
theorem C3_draw_reshuffle_behaviour :
    (∀ shuffle (p : PlayerState), (∀ l, (shuffle l).length = l.length) →
      p.deck = [] → p.discard ≠ [] →
      (reshuffle_if_needed shuffle p).deck.length = p.discard.length
      ∧ (reshuffle_if_needed shuffle p).discard = [])
    ∧ (∀ shuffle (p : PlayerState) n,
      (draw_cards shuffle p n).1.hand = p.hand ++ (draw_cards shuffle p n).2
      ∧ (draw_cards shuffle p n).2.length ≤ n)
    ∧ (∀ shuffle (p : PlayerState), p.deck ≠ [] →
      ∃ c, p.deck.getLast? = some c ∧ draw_one shuffle p =
        ({ p with deck := p.deck.dropLast, hand := p.hand ++ [c] }, some c))
    ∧ (∀ shuffle (p : PlayerState) n, p.deck = [] → p.discard = [] →
      draw_one shuffle p = (p, none) ∧ draw_cards shuffle p n = (p, []))
    ∧ (∀ shuffle, (∀ l, (shuffle l).length = l.length) →
      (draw_cards shuffle pScenC 6).1.hand.length = 6
      ∧ (draw_cards shuffle pScenC 6).1.deck.length = 2
      ∧ (draw_cards shuffle pScenC 6).1.discard = []) := by
  refine ⟨?_, ?_, ?_, ?_, ?_⟩
  · intro shuffle p hlen hd hdc
    unfold reshuffle_if_needed
    rw [if_pos ⟨hd, hdc⟩]
    dsimp only
    rw [hd, List.nil_append]
    exact ⟨hlen p.discard, rfl⟩
  · intro shuffle p n
    exact draw_cards_hand_order shuffle n p
  · intro shuffle p h
    exact draw_one_top shuffle p h
  · intro shuffle p n hd hc
    exact ⟨draw_one_empty shuffle p hd hc, draw_cards_empty shuffle p n hd hc⟩
  · intro shuffle hlen
    have hsplit := draw_cards_add shuffle 3 3 pScenC
    have h3 : (draw_cards shuffle pScenC 3).1 = p3mid := rfl
    have hshift := draw_cards_reshuffle shuffle p3mid 2
    have h21 : (2 : Nat) + 1 = 3 := rfl
    rw [h21] at hshift
    have hre : reshuffle_if_needed shuffle p3mid =
        { p3mid with deck := [] ++ shuffle ["d", "e", "f", "g", "h"], discard := [] } := by
      unfold reshuffle_if_needed
      rw [if_pos (⟨rfl, by decide⟩ : p3mid.deck = [] ∧ p3mid.discard ≠ [])]
      rfl
    have hq := draw_cards_deck_only shuffle 3
      { p3mid with deck := [] ++ shuffle ["d", "e", "f", "g", "h"], discard := [] }
      rfl (by
        dsimp only
        rw [List.nil_append, hlen]
        decide)
    have hsix : (6 : Nat) = 3 + 3 := rfl
    rw [hsix, hsplit, h3, ← hshift, hre]
    obtain ⟨hq1, hq2, hq3⟩ := hq
    refine ⟨?_, ?_, hq3⟩
    · rw [hq2]
      rfl
    · rw [hq1]
      dsimp only
      rw [List.nil_append, hlen]
      rfl

/-- C3 witness: the reshuffle size law and Scenario C, instantiated with the
identity shuffle. -/
theorem C3_draw_reshuffle_witness :
    (reshuffle_if_needed idShuffle pShuf).deck.length = pShuf.discard.length
    ∧ (reshuffle_if_needed idShuffle pShuf).discard = []
    ∧ (draw_cards idShuffle pScenC 6).1.hand.length = 6
    ∧ (draw_cards idShuffle pScenC 6).1.deck.length = 2
    ∧ (draw_cards idShuffle pScenC 6).1.discard = [] := by
  obtain ⟨h1, h2⟩ := C3_draw_reshuffle_behaviour.1 idShuffle pShuf
    (fun l => rfl) rfl (by decide)
  obtain ⟨h3, h4, h5⟩ := C3_draw_reshuffle_behaviour.2.2.2.2 idShuffle (fun l => rfl)
  exact ⟨h1, h2, h3, h4, h5⟩

end LastHand
